import Mathlib

/-!
AlgoPay payment reconciliation: embedding and verified properties.

A shallow embedding of the payment reconciliation engine of the AlgoPay
server (packages `models`, `db`, `algorand`, `api`, `config`).

* Go structs become Lean structures with the same field names.
* `uint64` values are natural numbers; the one place where the source does
  arithmetic on them (`lastCheckedRound + 1`) is reduced modulo `2^64`.
* `time.Time` values are integers (nanoseconds since the epoch). The table keeps
  timestamps as text, and the SQL comparisons of `expires_at` with
  CURRENT_TIMESTAMP compare texts (see `expiresAtLeNow`).
* The SQLite table `payments` is a list of rows, in table order.
* The indexer and the node are external: they are functions and values supplied
  by the environment of each step.
* Go errors are `Except String`.
-/

namespace AlgoPay

/-! ## models/payment.go -/

/-- The four status constants of `models.PaymentStatus`. -/
inductive PaymentStatus where
  | pending
  | completed
  | failed
  | expired
  deriving DecidableEq, Repr

/-- The struct `models.Payment`. -/
structure Payment where
  ID : String
  MerchantAddress : String
  Amount : Nat
  AssetID : Nat
  CallbackURL : String
  Status : PaymentStatus
  TxnID : String
  CreatedAt : Int
  UpdatedAt : Int
  ExpiresAt : Int
  deriving DecidableEq, Repr

/-- The struct `models.PaymentRequest`. -/
structure PaymentRequest where
  MerchantAddress : String
  Amount : Nat
  AssetID : Nat
  CallbackURL : String
  deriving DecidableEq, Repr

/-! ## config/config.go -/

/-- The field of `config.Config` read by the payment code (minutes, a Go `int`). -/
structure Config where
  PaymentTimeout : Int
  deriving DecidableEq, Repr

/-- The function `getEnv` (config.go:37-42); `value` is what `os.Getenv(key)` returns. -/
def getEnv (value defaultValue : String) : String :=
  if value ≠ "" then value else defaultValue

/-- The function `LoadConfig` (config.go:19-34), for the field `PaymentTimeout`.
`getenv` is the process environment and `atoi` is `strconv.Atoi`. -/
def LoadConfig (getenv : String → String) (atoi : String → Except String Int) : Config :=
  match atoi (getEnv (getenv "PAYMENT_TIMEOUT") "30") with
  | .error _ => { PaymentTimeout := 30 }
  | .ok timeout => { PaymentTimeout := timeout }

/-! ## algorand/client.go: the matcher -/

/-- The struct `algorand.Transaction`; `Timestamp` is in seconds since the epoch. -/
structure Transaction where
  ID : String
  Sender : String
  Receiver : String
  Amount : Nat
  AssetID : Nat
  Round : Nat
  Timestamp : Int
  deriving DecidableEq, Repr

/-- The fields of the indexer SDK payment body that `CheckPayment` reads. -/
structure TransactionPayment where
  Receiver : String
  Amount : Nat
  deriving DecidableEq, Repr

/-- The fields of the indexer SDK asset transfer body that `CheckPayment` reads. -/
structure TransactionAssetTransfer where
  Receiver : String
  Amount : Nat
  deriving DecidableEq, Repr

/-- The fields of one transaction of an indexer response that `CheckPayment` reads.
Both bodies are struct values in the SDK: the body that does not belong to the
transaction type holds zero values. -/
structure IndexerTransaction where
  Id : String
  Sender : String
  PaymentTransaction : TransactionPayment
  AssetTransferTransaction : TransactionAssetTransfer
  ConfirmedRound : Nat
  RoundTime : Nat
  deriving DecidableEq, Repr

/-- One `LookupAccountTransactions(address)` request with the builder options the
source sets on it: `MinRound`, `TxType` and (optionally) `AssetID`. -/
structure LookupQuery where
  address : String
  minRound : Nat
  txType : String
  assetID : Option Nat
  deriving DecidableEq, Repr

/-- The indexer as seen by one call of `CheckPayment`: the outcome of `Do` for
each request, either an error or the list `Transactions` of the response. -/
abbrev Indexer := LookupQuery → Except String (List IndexerTransaction)

/-- The Go conversion `int64(x)` of a `uint64`. -/
def toInt64 (n : Nat) : Int :=
  if n % 2 ^ 64 < 2 ^ 63 then ((n % 2 ^ 64 : Nat) : Int) else ((n % 2 ^ 64 : Nat) : Int) - 2 ^ 64

/-- The request built at client.go:65-67 (`MinRound(lastCheckedRound + 1)`, `TxType("pay")`). -/
def payLookup (payment : Payment) (lastCheckedRound : Nat) : LookupQuery :=
  { address := payment.MerchantAddress
    minRound := (lastCheckedRound + 1) % 2 ^ 64
    txType := "pay"
    assetID := none }

/-- The request built at client.go:94-97 (`TxType("axfer")`, `AssetID(payment.AssetID)`). -/
def axferLookup (payment : Payment) (lastCheckedRound : Nat) : LookupQuery :=
  { address := payment.MerchantAddress
    minRound := (lastCheckedRound + 1) % 2 ^ 64
    txType := "axfer"
    assetID := some payment.AssetID }

/-- The struct literal returned at client.go:79-87. -/
def payTransaction (txn : IndexerTransaction) : Transaction :=
  { ID := txn.Id
    Sender := txn.Sender
    Receiver := txn.PaymentTransaction.Receiver
    Amount := txn.PaymentTransaction.Amount
    AssetID := 0
    Round := txn.ConfirmedRound
    Timestamp := toInt64 txn.RoundTime }

/-- The struct literal returned at client.go:107-115. -/
def axferTransaction (payment : Payment) (txn : IndexerTransaction) : Transaction :=
  { ID := txn.Id
    Sender := txn.Sender
    Receiver := txn.AssetTransferTransaction.Receiver
    Amount := txn.AssetTransferTransaction.Amount
    AssetID := payment.AssetID
    Round := txn.ConfirmedRound
    Timestamp := toInt64 txn.RoundTime }

/-- The loop at client.go:76-89: the first hit returns from `CheckPayment`. -/
def scanPay (payment : Payment) : List IndexerTransaction → Option Transaction
  | [] => none
  | txn :: rest =>
    if txn.PaymentTransaction.Receiver = payment.MerchantAddress ∧
        txn.PaymentTransaction.Amount ≥ payment.Amount then
      some (payTransaction txn)
    else
      scanPay payment rest

/-- The loop at client.go:104-117. -/
def scanAxfer (payment : Payment) : List IndexerTransaction → Option Transaction
  | [] => none
  | txn :: rest =>
    if txn.AssetTransferTransaction.Receiver = payment.MerchantAddress ∧
        txn.AssetTransferTransaction.Amount ≥ payment.Amount then
      some (axferTransaction payment txn)
    else
      scanAxfer payment rest

/-- The method `Client.CheckPayment` (client.go:63-121). The result `.ok none` is
the Go return `nil, nil`. -/
def CheckPayment (idx : Indexer) (payment : Payment) (lastCheckedRound : Nat) :
    Except String (Option Transaction) :=
  match idx (payLookup payment lastCheckedRound) with
  | .error err => .error ("failed to lookup transactions: " ++ err)
  | .ok result =>
    match (if payment.AssetID = 0 then scanPay payment result else none) with
    | some t => .ok (some t)
    | none =>
      if payment.AssetID ≠ 0 then
        match idx (axferLookup payment lastCheckedRound) with
        | .error err => .error ("failed to lookup ASA transactions: " ++ err)
        | .ok asaResult =>
          match scanAxfer payment asaResult with
          | some t => .ok (some t)
          | none => .ok none
      else
        .ok none

/-- The method `Client.GetLatestRound` (client.go:124-130); `status` is the outcome
of the node status call and carries `LastRound`. -/
def GetLatestRound (status : Except String Nat) : Except String Nat :=
  match status with
  | .error err => .error ("failed to get status: " ++ err)
  | .ok lastRound => .ok lastRound

/-! ## db/database.go: the payment table -/

/-- One row of the table `payments` (database.go:34-45). Only `txn_id` is ever
NULL: `CreatePayment` binds a Go value to every other column. The driver
go-sqlite3 (database.go:9) writes a `time.Time` as the text of its wall clock in
its own location followed by the zone offset, `2006-01-02 15:04:05.999999999-07:00`:
`expires_at` is the instant of that text and `expires_zone` the offset of its
zone suffix, in seconds east of UTC. -/
structure Row where
  id : String
  merchant_address : String
  amount : Nat
  asset_id : Nat
  callback_url : String
  status : PaymentStatus
  txn_id : Option String
  created_at : Int
  updated_at : Int
  expires_at : Int
  expires_zone : Int
  deriving DecidableEq, Repr

/-- The table `payments`, in table order. -/
abbrev Table := List Row

/-- The instant that the text of CURRENT_TIMESTAMP denotes: `YYYY-MM-DD HH:MM:SS`
in UTC, the whole second of the instant `now` at which the statement runs. -/
def currentTimestamp (now : Int) : Int :=
  now / 1000000000 * 1000000000

/-- The second that the first 19 characters `YYYY-MM-DD HH:MM:SS` of the stored
text of a `time.Time` denote when read as a count of seconds: the wall clock of
the instant in a zone `zone` seconds east of UTC. Texts of this fixed width are
ordered byte-wise as these counts are. -/
def wallSecond (instant zone : Int) : Int :=
  instant / 1000000000 + zone

/-- The condition `expires_at <= CURRENT_TIMESTAMP` of database.go:167 as SQLite
decides it. Both operands are texts and are compared byte-wise: the stored text
is the 19 characters of the wall clock followed by at least the zone suffix,
CURRENT_TIMESTAMP is the 19 characters of the UTC second. The stored text is
the smaller one exactly when its first 19 characters are smaller; when they are
equal it is the longer text and so the greater one. -/
def expiresAtLeNow (r : Row) (now : Int) : Prop :=
  wallSecond r.expires_at r.expires_zone < now / 1000000000

instance (r : Row) (now : Int) : Decidable (expiresAtLeNow r now) := by
  unfold expiresAtLeNow
  infer_instance

/-- The condition `expires_at > CURRENT_TIMESTAMP` of database.go:124, the same
comparison of texts: it holds exactly when `expires_at <= CURRENT_TIMESTAMP`
does not. -/
def expiresAtGtNow (r : Row) (now : Int) : Prop :=
  now / 1000000000 ≤ wallSecond r.expires_at r.expires_zone

instance (r : Row) (now : Int) : Decidable (expiresAtGtNow r now) := by
  unfold expiresAtGtNow
  infer_instance

/-- The method `Database.CreatePayment` (database.go:56-73). The INSERT names no
`txn_id` column, so the new row holds NULL there. `zone` is the offset from UTC,
in seconds, of the location of `payment.ExpiresAt`, which the driver writes as
the suffix of the text. `execOk` says whether the driver runs the statement;
the primary key rejects a second row with the same id. -/
def CreatePayment (d : Table) (payment : Payment) (zone : Int) (execOk : Bool) :
    Except String Table :=
  if execOk = true ∧ d.all (fun r => decide (r.id ≠ payment.ID)) = true then
    .ok (d ++ [{ id := payment.ID
                 merchant_address := payment.MerchantAddress
                 amount := payment.Amount
                 asset_id := payment.AssetID
                 callback_url := payment.CallbackURL
                 status := payment.Status
                 txn_id := none
                 created_at := payment.CreatedAt
                 updated_at := payment.UpdatedAt
                 expires_at := payment.ExpiresAt
                 expires_zone := zone }])
  else
    .error "insert failed"

/-- The method `Database.UpdatePaymentStatus` (database.go:109-117): the UPDATE
has the single condition `WHERE id = ?` and binds the Go string `txnID`, so the
column becomes non-NULL. `now` is the instant at which the statement runs. -/
def UpdatePaymentStatus (d : Table) (id : String) (status : PaymentStatus) (txnID : String)
    (now : Int) (execOk : Bool) : Except String Table :=
  if execOk = true then
    .ok (d.map (fun r =>
      if r.id = id then { r with status := status, txn_id := some txnID, updated_at := currentTimestamp now }
      else r))
  else
    .error "update failed"

/-- The row scan of `GetPendingPayments` (database.go:134-154): a NULL `txn_id`
leaves `TxnID` at the empty string. -/
def scanRow (r : Row) : Payment :=
  { ID := r.id
    MerchantAddress := r.merchant_address
    Amount := r.amount
    AssetID := r.asset_id
    CallbackURL := r.callback_url
    Status := r.status
    TxnID := match r.txn_id with
      | some s => s
      | none => ""
    CreatedAt := r.created_at
    UpdatedAt := r.updated_at
    ExpiresAt := r.expires_at }

/-- The method `Database.GetPendingPayments` (database.go:120-160):
`WHERE status = 'pending' AND expires_at > CURRENT_TIMESTAMP`. `queryOk` says
whether `Query` succeeds. The loop over `rows.Next()` ends when the rows are
exhausted or when the iteration fails, and `rows.Err()` is never inspected:
with `rowsRead = some n` the iteration fails after `n` rows and those rows are
returned with a nil error; with `rowsRead = none` it reaches the end. -/
def GetPendingPayments (d : Table) (now : Int) (queryOk : Bool) (rowsRead : Option Nat) :
    Except String (List Payment) :=
  if queryOk = true then
    match rowsRead with
    | none =>
      .ok ((d.filter (fun r =>
        decide (r.status = PaymentStatus.pending) && decide (expiresAtGtNow r now))).map scanRow)
    | some n =>
      .ok (((d.filter (fun r =>
        decide (r.status = PaymentStatus.pending) && decide (expiresAtGtNow r now))).map
          scanRow).take n)
  else
    .error "query failed"

/-- The method `Database.ExpireOldPayments` (database.go:163-171):
`SET status = 'expired', updated_at = CURRENT_TIMESTAMP
 WHERE status = 'pending' AND expires_at <= CURRENT_TIMESTAMP`. -/
def ExpireOldPayments (d : Table) (now : Int) (execOk : Bool) : Except String Table :=
  if execOk = true then
    .ok (d.map (fun r =>
      if r.status = PaymentStatus.pending ∧ expiresAtLeNow r now then
        { r with status := PaymentStatus.expired, updated_at := currentTimestamp now }
      else r))
  else
    .error "update failed"

/-! ## The running server: store, queue, watermark -/

/-- The state shared by the three background loops started in `NewServer`
(handlers.go:30-48): the table, the buffered channel `paymentChan` (oldest event
first), the local `lastCheckedRound` of `StartPaymentMonitor`, and the payments for
which a `sendWebhook` goroutine has been started (oldest first). -/
structure System where
  db : Table
  paymentChan : List Payment
  lastCheckedRound : Nat
  webhooks : List Payment
  deriving DecidableEq, Repr

/-- What the outside world supplies to one iteration of the ticker body of
`StartPaymentMonitor`: the outcome of the node status call, the clock and outcome
of the listing query and of the iteration over its rows, and for the i-th
payment of the listing the indexer as it answers then and the reading of
`time.Now()` at client.go:196. -/
structure TickEnv where
  status : Except String Nat
  listNow : Int
  listOk : Bool
  listRows : Option Nat
  indexer : Nat → Indexer
  clock : Nat → Int

/-- The assignments at client.go:194-196 on the listed payment; `now` is the reading
of `time.Now()`. -/
def markCompleted (payment : Payment) (txn : Transaction) (now : Int) : Payment :=
  { payment with
    Status := PaymentStatus.completed
    TxnID := txn.ID
    UpdatedAt := now }

/-- The loop at client.go:185-201 over the listed payments, from position `i` on;
`chan` is the channel content so far. A send appends to the channel. -/
def checkPayments (indexer : Nat → Indexer) (clock : Nat → Int) (lastCheckedRound : Nat) :
    Nat → List Payment → List Payment → List Payment
  | _, [], chan => chan
  | i, payment :: rest, chan =>
    match CheckPayment (indexer i) payment lastCheckedRound with
    | .error _ => checkPayments indexer clock lastCheckedRound (i + 1) rest chan
    | .ok none => checkPayments indexer clock lastCheckedRound (i + 1) rest chan
    | .ok (some txn) =>
      checkPayments indexer clock lastCheckedRound (i + 1) rest
        (chan ++ [markCompleted payment txn (clock i)])

/-- One iteration of the ticker body of `Client.StartPaymentMonitor`
(client.go:169-204). -/
def StartPaymentMonitorTick (env : TickEnv) (s : System) : System :=
  match GetLatestRound env.status with
  | .error _ => s
  | .ok currentRound =>
    match GetPendingPayments s.db env.listNow env.listOk env.listRows with
    | .error _ => s
    | .ok payments =>
      { s with
        paymentChan := checkPayments env.indexer env.clock s.lastCheckedRound 0 payments s.paymentChan
        lastCheckedRound := currentRound }

/-- One iteration of the loop of `Server.processWebhooks` (handlers.go:198-209):
it takes the oldest event; on an empty channel it waits. `now` is
CURRENT_TIMESTAMP of the UPDATE. -/
def processWebhooksStep (now : Int) (execOk : Bool) (s : System) : System :=
  match s.paymentChan with
  | [] => s
  | payment :: rest =>
    match UpdatePaymentStatus s.db payment.ID payment.Status payment.TxnID now execOk with
    | .error _ => { s with paymentChan := rest }
    | .ok db =>
      if payment.CallbackURL ≠ "" then
        { s with db := db, paymentChan := rest, webhooks := s.webhooks ++ [payment] }
      else
        { s with db := db, paymentChan := rest }

/-- One iteration of the ticker body of `Server.cleanupExpiredPayments`
(handlers.go:252-255). -/
def cleanupExpiredPaymentsTick (now : Int) (execOk : Bool) (s : System) : System :=
  match ExpireOldPayments s.db now execOk with
  | .error _ => s
  | .ok db => { s with db := db }

/-- The Go arithmetic on `int64`: the value modulo `2^64` in the signed range. -/
def wrapInt64 (z : Int) : Int :=
  (z + 2 ^ 63) % 2 ^ 64 - 2 ^ 63

/-- What the outside world supplies to one call of `initPayment`: the fresh uuid,
the three successive readings of `time.Now()` at handlers.go:113-115, the offset
from UTC in seconds of the local zone, which is the location of the values of
`time.Now()`, at the expiry time, and whether the INSERT runs. -/
structure InitEnv where
  uuid : String
  now1 : Int
  now2 : Int
  now3 : Int
  zone : Int
  execOk : Bool
  deriving DecidableEq, Repr

/-- The record built at handlers.go:106-116. `time.Minute` is 60000000000
nanoseconds and the product is an `int64` product. -/
def newPayment (cfg : Config) (req : PaymentRequest) (env : InitEnv) : Payment :=
  { ID := env.uuid
    MerchantAddress := req.MerchantAddress
    Amount := req.Amount
    AssetID := req.AssetID
    CallbackURL := req.CallbackURL
    Status := PaymentStatus.pending
    TxnID := ""
    CreatedAt := env.now1
    UpdatedAt := env.now2
    ExpiresAt := env.now3 + wrapInt64 (wrapInt64 cfg.PaymentTimeout * 60000000000) }

/-- The effect on the server state of the handler `Server.initPayment`
(handlers.go:85-123); `req` is the outcome of `ShouldBindJSON`. -/
def initPayment (cfg : Config) (req : Except String PaymentRequest) (env : InitEnv)
    (s : System) : System :=
  match req with
  | .error _ => s
  | .ok req =>
    if req.Amount = 0 then s
    else
      match CreatePayment s.db (newPayment cfg req env) env.zone env.execOk with
      | .error _ => s
      | .ok db => { s with db := db }

/-- A process start (main.go:41-54, handlers.go:30-48): the table file is kept, the
channel is fresh and `lastCheckedRound` starts at 0 (client.go:165). -/
def restart (s : System) : System :=
  { db := s.db, paymentChan := [], lastCheckedRound := 0, webhooks := [] }

/-- The atomic steps of the server. The monitor tick reads the table once, at its
listing, and never writes it, so taking the whole tick as one step at the time
of its listing loses no order of table writes. -/
inductive Step where
  | init (req : Except String PaymentRequest) (env : InitEnv)
  | monitor (env : TickEnv)
  | webhook (now : Int) (execOk : Bool)
  | cleanup (now : Int) (execOk : Bool)
  | reboot

/-- The effect of one step. -/
def step (cfg : Config) (s : System) : Step → System
  | .init req env => initPayment cfg req env s
  | .monitor env => StartPaymentMonitorTick env s
  | .webhook now execOk => processWebhooksStep now execOk s
  | .cleanup now execOk => cleanupExpiredPaymentsTick now execOk s
  | .reboot => restart s

/-- The effect of a sequence of steps, oldest first. -/
def run (cfg : Config) (s : System) (steps : List Step) : System :=
  steps.foldl (step cfg) s

/-- The server at its first start: an empty table. -/
def initial : System :=
  { db := [], paymentChan := [], lastCheckedRound := 0, webhooks := [] }

/-! ## Vocabulary of the properties -/

/-- A transfer qualifies for a payment when its receiver is the merchant address
and its amount is at least the requested amount. -/
def Qualifies (payment : Payment) (t : Transaction) : Prop :=
  t.Receiver = payment.MerchantAddress ∧ payment.Amount ≤ t.Amount

instance (payment : Payment) (t : Transaction) : Decidable (Qualifies payment t) := by
  unfold Qualifies
  infer_instance

/-- The transfers that `CheckPayment` scans for a payment, in response order:
those of the `pay` response for asset 0, those of the `axfer` response otherwise. -/
def returnedTransfers (payment : Payment) (result asaResult : List IndexerTransaction) :
    List Transaction :=
  if payment.AssetID = 0 then result.map payTransaction
  else asaResult.map (axferTransaction payment)

/-! ## Concrete scenarios -/

/-- A request for 1,000,000 micro-units of asset 0 to address A. -/
def scenarioPayment : Payment :=
  { ID := "p1"
    MerchantAddress := "A"
    Amount := 1000000
    AssetID := 0
    CallbackURL := "http://merchant/cb"
    Status := PaymentStatus.pending
    TxnID := ""
    CreatedAt := 0
    UpdatedAt := 0
    ExpiresAt := 1800000000000 }

/-- A native transfer of the given amount to address A confirmed at height 42. -/
def scenarioTransfer (amount : Nat) : IndexerTransaction :=
  { Id := "TX1"
    Sender := "B"
    PaymentTransaction := { Receiver := "A", Amount := amount }
    AssetTransferTransaction := { Receiver := "", Amount := 0 }
    ConfirmedRound := 42
    RoundTime := 1700000000 }

/-- An indexer whose ledger holds the one native transfer `scenarioTransfer amount`. -/
def scenarioIndexer (amount : Nat) : Indexer := fun q =>
  if q.txType = "pay" ∧ q.address = "A" ∧ q.minRound ≤ 42 then .ok [scenarioTransfer amount]
  else .ok []

/-- The stored row of `scenarioPayment`, still pending. -/
def scenarioRow : Row :=
  { id := "p1"
    merchant_address := "A"
    amount := 1000000
    asset_id := 0
    callback_url := "http://merchant/cb"
    status := PaymentStatus.pending
    txn_id := none
    created_at := 0
    updated_at := 0
    expires_at := 1800000000000
    expires_zone := 0 }

/-- A server holding the one pending payment, with watermark 40 and an empty queue. -/
def scenarioSystem : System :=
  { db := [scenarioRow], paymentChan := [], lastCheckedRound := 40, webhooks := [] }

/-- A tick at time 100 in which the node reports height `height` and the ledger
holds the native transfer `scenarioTransfer amount`. -/
def scenarioTick (height amount : Nat) : TickEnv :=
  { status := .ok height
    listNow := 100
    listOk := true
    listRows := none
    indexer := fun _ => scenarioIndexer amount
    clock := fun _ => 101 }

/-- A tick whose height read fails. -/
def failedStatusTick : TickEnv :=
  { status := .error "connection refused"
    listNow := 100
    listOk := true
    listRows := none
    indexer := fun _ => scenarioIndexer 1500000
    clock := fun _ => 101 }

/-- A tick whose listing of active payments fails. -/
def failedListingTick : TickEnv :=
  { status := .ok 50
    listNow := 100
    listOk := false
    listRows := none
    indexer := fun _ => scenarioIndexer 1500000
    clock := fun _ => 101 }

/-- The event the monitor sends for `scenarioPayment` matched by transfer TX1. -/
def scenarioEvent : Payment :=
  { scenarioPayment with Status := PaymentStatus.completed, TxnID := "TX1", UpdatedAt := 101 }

/-- A server whose queue holds the one event `scenarioEvent`. -/
def scenarioQueued : System :=
  { db := [scenarioRow], paymentChan := [scenarioEvent], lastCheckedRound := 50, webhooks := [] }

/-- A request for 1,000,000 units of asset 31566704 to address A. -/
def asaPayment : Payment :=
  { scenarioPayment with ID := "p4", AssetID := 31566704 }

/-- An asset transfer of 1,500,000 units to A confirmed at height 42. -/
def asaTransfer : IndexerTransaction :=
  { Id := "TX2"
    Sender := "B"
    PaymentTransaction := { Receiver := "", Amount := 0 }
    AssetTransferTransaction := { Receiver := "A", Amount := 1500000 }
    ConfirmedRound := 42
    RoundTime := 1700000000 }

/-- An indexer that answers the `axfer` request with `asaTransfer` and the `pay`
request with the given outcome. -/
def asaIndexer (payOutcome : Except String (List IndexerTransaction)) : Indexer := fun q =>
  if q.txType = "pay" then payOutcome
  else if q.txType = "axfer" ∧ q.assetID = some 31566704 ∧ q.address = "A" then .ok [asaTransfer]
  else .ok []

/-- Every transaction of every successful response of the indexer carries a
non-empty id. -/
def IdsNonEmpty (idx : Indexer) : Prop :=
  ∀ q l, idx q = .ok l → ∀ x ∈ l, x.Id ≠ ""

/-- The indexer responses seen during a step carry non-empty transaction ids. -/
def StepIdsNonEmpty : Step → Prop
  | .monitor env => ∀ i, IdsNonEmpty (env.indexer i)
  | _ => True

/-- Every event waiting on the channel has status completed. -/
def QueueCompleted (s : System) : Prop :=
  ∀ e ∈ s.paymentChan, e.Status = PaymentStatus.completed

/-- A stored txn id is non-NULL exactly on the completed rows. -/
def TxnIffCompleted (s : System) : Prop :=
  ∀ r ∈ s.db, (r.txn_id ≠ none ↔ r.status = PaymentStatus.completed)

/-- No stored txn id and no txn id of a waiting event is the empty string. -/
def TxnNonEmpty (s : System) : Prop :=
  (∀ r ∈ s.db, r.txn_id ≠ some "") ∧ (∀ e ∈ s.paymentChan, e.TxnID ≠ "")

/-- A payment timeout of 30 minutes. -/
def scenarioConfig : Config :=
  { PaymentTimeout := 30 }

/-- The request that creates `scenarioPayment`. -/
def scenarioRequest : PaymentRequest :=
  { MerchantAddress := "A"
    Amount := 1000000
    AssetID := 0
    CallbackURL := "http://merchant/cb" }

/-- Creation at time 0 with uuid p1: the payment expires at 1800000000000 ns. -/
def scenarioInit : InitEnv :=
  { uuid := "p1", now1 := 0, now2 := 0, now3 := 0, zone := 0, execOk := true }

/-- Creation at time 0 on a server whose local zone is seven hours west of UTC. -/
def westInit : InitEnv :=
  { uuid := "p1", now1 := 0, now2 := 0, now3 := 0, zone := -25200, execOk := true }

/-- Creation at time 0 on a server whose local zone is one hour east of UTC. -/
def eastInit : InitEnv :=
  { uuid := "p1", now1 := 0, now2 := 0, now3 := 0, zone := 3600, execOk := true }

/-- A run in which the sweeper runs, one second after the expiry time, between the
tick that matches the payment and the dispatcher step that handles its event. -/
def raceRun : List Step :=
  [ .init (.ok scenarioRequest) scenarioInit,
    .monitor (scenarioTick 50 1500000),
    .cleanup 1801000000000 true,
    .webhook 1801000000001 true ]

/-- A later tick in which the ledger holds a second qualifying transfer TX9. -/
def secondTick : TickEnv :=
  { status := .ok 60
    listNow := 200
    listOk := true
    listRows := none
    indexer := fun _ q =>
      if q.txType = "pay" ∧ q.address = "A" ∧ q.minRound ≤ 55 then
        .ok [{ scenarioTransfer 2000000 with Id := "TX9", ConfirmedRound := 55 }]
      else .ok []
    clock := fun _ => 201 }

/-- A run in which two ticks match the payment before the dispatcher handles
the first event. -/
def doubleMatchRun : List Step :=
  [ .init (.ok scenarioRequest) scenarioInit,
    .monitor (scenarioTick 50 1500000),
    .monitor secondTick,
    .webhook 300 true,
    .webhook 301 true ]

/-- A tick in which the indexer returns a qualifying transfer whose id is empty. -/
def emptyIdTick : TickEnv :=
  { status := .ok 50
    listNow := 100
    listOk := true
    listRows := none
    indexer := fun _ q =>
      if q.txType = "pay" ∧ q.address = "A" then .ok [{ scenarioTransfer 1500000 with Id := "" }]
      else .ok []
    clock := fun _ => 101 }

/-- A run that completes the payment with the transfer of `emptyIdTick`. -/
def emptyIdRun : List Step :=
  [ .init (.ok scenarioRequest) scenarioInit,
    .monitor emptyIdTick,
    .webhook 200 true ]

/-- Creation in which the three clock readings differ: 0, 400 and 1000 ns. -/
def driftInit : InitEnv :=
  { uuid := "p1", now1 := 0, now2 := 400, now3 := 1000, zone := 0, execOk := true }

/-- A timeout whose nanosecond count does not fit in an `int64`. -/
def hugeTimeoutConfig : Config :=
  { PaymentTimeout := 153722868 }

/-- A process environment that sets PAYMENT_TIMEOUT to the text 30. -/
def scenarioGetenv : String → String := fun key =>
  if key = "PAYMENT_TIMEOUT" then "30" else ""

/-- The outcome of `strconv.Atoi` on the texts of the scenarios. -/
def scenarioAtoi : String → Except String Int := fun text =>
  if text = "30" then .ok 30 else .error "invalid syntax"

/-- A server with two pending payments for the same payee, asset and amount. -/
def twinSystem : System :=
  { db := [scenarioRow, { scenarioRow with id := "p5" }]
    paymentChan := []
    lastCheckedRound := 40
    webhooks := [] }

/-- The indexer returns only transactions confirmed at or above the requested
minimum round. -/
def RespectsMinRound (idx : Indexer) : Prop :=
  ∀ q l, idx q = .ok l → ∀ x ∈ l, q.minRound ≤ x.ConfirmedRound

/-- The step does not bring the watermark below `H`: a monitor tick reads a height
of at least `H` if it reads one, and the process is not started anew. -/
def KeepsWatermarkAbove (H : Nat) : Step → Prop
  | .monitor env => ∀ h, env.status = .ok h → H ≤ h
  | .reboot => False
  | _ => True

/-- A tick in which the node reports height 50 and every indexer query fails. -/
def outageTick : TickEnv :=
  { status := .ok 50
    listNow := 100
    listOk := true
    listRows := none
    indexer := fun _ _ => .error "indexer down"
    clock := fun _ => 101 }

/-- Three ticks: the indexer is down while the node reports height 50; then the
node reports height 30; then the node reports height 60. The ledger holds the
transfer TX1 confirmed at height 42 throughout. -/
def missedRun : List Step :=
  [ .monitor outageTick,
    .monitor (scenarioTick 30 1500000),
    .monitor (scenarioTick 60 1500000) ]

/-! ## Properties -/

/-! ### The matcher -/

theorem scanPay_eq_find (payment : Payment) (l : List IndexerTransaction) :
    scanPay payment l = (l.map payTransaction).find? (fun t => decide (Qualifies payment t)) := by
  induction l with
  | nil => rfl
  | cons txn rest ih =>
    by_cases h : txn.PaymentTransaction.Receiver = payment.MerchantAddress ∧
        txn.PaymentTransaction.Amount ≥ payment.Amount
    · have hq : Qualifies payment (payTransaction txn) := h
      simp [scanPay, h, List.find?_cons, hq]
    · have hq : ¬ Qualifies payment (payTransaction txn) := h
      simp only [scanPay, if_neg h, List.map_cons, List.find?_cons, decide_eq_false hq]
      exact ih

theorem scanAxfer_eq_find (payment : Payment) (l : List IndexerTransaction) :
    scanAxfer payment l =
      (l.map (axferTransaction payment)).find? (fun t => decide (Qualifies payment t)) := by
  induction l with
  | nil => rfl
  | cons txn rest ih =>
    by_cases h : txn.AssetTransferTransaction.Receiver = payment.MerchantAddress ∧
        txn.AssetTransferTransaction.Amount ≥ payment.Amount
    · have hq : Qualifies payment (axferTransaction payment txn) := h
      simp [scanAxfer, h, List.find?_cons, hq]
    · have hq : ¬ Qualifies payment (axferTransaction payment txn) := h
      simp only [scanAxfer, if_neg h, List.map_cons, List.find?_cons, decide_eq_false hq]
      exact ih

/-- When its ledger queries succeed, `CheckPayment` returns the result of a
first-hit search over the scanned transfers. -/
theorem CheckPayment_eq_find (idx : Indexer) (payment : Payment) (sinceHeight : Nat)
    (result asaResult : List IndexerTransaction)
    (hpay : idx (payLookup payment sinceHeight) = .ok result)
    (hasa : payment.AssetID ≠ 0 → idx (axferLookup payment sinceHeight) = .ok asaResult) :
    CheckPayment idx payment sinceHeight =
      .ok ((returnedTransfers payment result asaResult).find?
        (fun t => decide (Qualifies payment t))) := by
  unfold CheckPayment returnedTransfers
  rw [hpay]
  by_cases h0 : payment.AssetID = 0
  · simp only [h0, if_true, scanPay_eq_find]
    cases hf : List.find? (fun t => decide (Qualifies payment t)) (List.map payTransaction result) with
    | none => simp
    | some t => simp
  · simp only [h0, if_false, hasa h0, scanAxfer_eq_find, ne_eq, not_false_eq_true, if_true]
    cases hf : List.find? (fun t => decide (Qualifies payment t))
        (List.map (axferTransaction payment) asaResult) with
    | none => simp
    | some t => simp

/-- C1: when its ledger queries succeed, `CheckPayment` succeeds; it returns a
transfer `t` exactly when `t` is the first of the scanned transfers, in the order
the indexer returned them, whose receiver is the payee address and whose amount
is at least the requested amount; and it returns none exactly when no scanned
transfer qualifies. -/
theorem CheckPayment_returns_first_qualifying (idx : Indexer) (payment : Payment)
    (sinceHeight : Nat) (result asaResult : List IndexerTransaction)
    (hpay : idx (payLookup payment sinceHeight) = .ok result)
    (hasa : payment.AssetID ≠ 0 → idx (axferLookup payment sinceHeight) = .ok asaResult) :
    (∃ r, CheckPayment idx payment sinceHeight = .ok r) ∧
    (∀ t, CheckPayment idx payment sinceHeight = .ok (some t) ↔
      ∃ pre post, returnedTransfers payment result asaResult = pre ++ t :: post ∧
        (t.Receiver = payment.MerchantAddress ∧ payment.Amount ≤ t.Amount) ∧
        ∀ u ∈ pre, ¬ (u.Receiver = payment.MerchantAddress ∧ payment.Amount ≤ u.Amount)) ∧
    (CheckPayment idx payment sinceHeight = .ok none ↔
      ∀ u ∈ returnedTransfers payment result asaResult,
        ¬ (u.Receiver = payment.MerchantAddress ∧ payment.Amount ≤ u.Amount)) := by
  rw [CheckPayment_eq_find idx payment sinceHeight result asaResult hpay hasa]
  refine ⟨⟨_, rfl⟩, ?_, ?_⟩
  · intro t
    constructor
    · intro h
      have h1 : List.find? (fun t => decide (Qualifies payment t))
          (returnedTransfers payment result asaResult) = some t := by
        injection h
      rw [List.find?_eq_some] at h1
      obtain ⟨hq, pre, post, heq, hpre⟩ := h1
      refine ⟨pre, post, heq, of_decide_eq_true hq, ?_⟩
      intro u hu
      have hn : ¬ Qualifies payment u := by simpa using hpre u hu
      exact hn
    · rintro ⟨pre, post, heq, hq, hpre⟩
      have h1 : List.find? (fun t => decide (Qualifies payment t))
          (returnedTransfers payment result asaResult) = some t := by
        rw [List.find?_eq_some]
        refine ⟨decide_eq_true hq, pre, post, heq, ?_⟩
        intro u hu
        have hn : ¬ Qualifies payment u := hpre u hu
        simpa using hn
      rw [h1]
  · constructor
    · intro h
      have h1 : List.find? (fun t => decide (Qualifies payment t))
          (returnedTransfers payment result asaResult) = none := by
        injection h
      rw [List.find?_eq_none] at h1
      intro u hu
      have hn : ¬ Qualifies payment u := by simpa using h1 u hu
      exact hn
    · intro h
      have h1 : List.find? (fun t => decide (Qualifies payment t))
          (returnedTransfers payment result asaResult) = none := by
        rw [List.find?_eq_none]
        intro u hu
        have hn : ¬ Qualifies payment u := h u hu
        simpa using hn
      rw [h1]

/-- C1, the two scenarios: with watermark 40 and a native transfer of 1,500,000 to
A at height 42 the matcher returns that transfer; with a transfer of 900,000 it
returns none. -/
theorem CheckPayment_returns_first_qualifying_witness :
    CheckPayment (scenarioIndexer 1500000) scenarioPayment 40 =
        .ok (some (payTransaction (scenarioTransfer 1500000))) ∧
      CheckPayment (scenarioIndexer 900000) scenarioPayment 40 = .ok none :=
  ⟨((CheckPayment_returns_first_qualifying (scenarioIndexer 1500000) scenarioPayment 40
      [scenarioTransfer 1500000] [] rfl (fun h => absurd rfl h)).2.1 _).2
      ⟨[], [], rfl, by decide, by simp⟩,
   (CheckPayment_returns_first_qualifying (scenarioIndexer 900000) scenarioPayment 40
      [scenarioTransfer 900000] [] rfl (fun h => absurd rfl h)).2.2.2 (by decide)⟩

/-! ### The store operations -/

theorem UpdatePaymentStatus_ok (d : Table) (id : String) (status : PaymentStatus)
    (txnID : String) (now : Int) :
    UpdatePaymentStatus d id status txnID now true =
      .ok (d.map (fun r =>
        if r.id = id then { r with status := status, txn_id := some txnID, updated_at := currentTimestamp now }
        else r)) := by
  simp [UpdatePaymentStatus]

theorem UpdatePaymentStatus_fail (d : Table) (id : String) (status : PaymentStatus)
    (txnID : String) (now : Int) :
    UpdatePaymentStatus d id status txnID now false = .error "update failed" := by
  simp [UpdatePaymentStatus]

theorem ExpireOldPayments_ok (d : Table) (now : Int) :
    ExpireOldPayments d now true =
      .ok (d.map (fun r =>
        if r.status = PaymentStatus.pending ∧ expiresAtLeNow r now then
          { r with status := PaymentStatus.expired, updated_at := currentTimestamp now }
        else r)) := by
  simp [ExpireOldPayments]

/-! ### The watermark -/

theorem tick_db (env : TickEnv) (s : System) : (StartPaymentMonitorTick env s).db = s.db := by
  unfold StartPaymentMonitorTick
  cases GetLatestRound env.status with
  | error e => rfl
  | ok r =>
    cases GetPendingPayments s.db env.listNow env.listOk env.listRows with
    | error e => rfl
    | ok l => rfl

theorem tick_webhooks (env : TickEnv) (s : System) :
    (StartPaymentMonitorTick env s).webhooks = s.webhooks := by
  unfold StartPaymentMonitorTick
  cases GetLatestRound env.status with
  | error e => rfl
  | ok r =>
    cases GetPendingPayments s.db env.listNow env.listOk env.listRows with
    | error e => rfl
    | ok l => rfl

/-- C4: after a tick the watermark is the height read at its start when the
height read and the listing both succeed, whatever the indexer answers for the
listed payments; it is the watermark before the tick when the height read fails
or the listing fails. -/
theorem watermark_after_tick (env : TickEnv) (s : System) :
    (∀ h, env.status = .ok h → env.listOk = true →
      (StartPaymentMonitorTick env s).lastCheckedRound = h) ∧
    (∀ e, env.status = .error e →
      (StartPaymentMonitorTick env s).lastCheckedRound = s.lastCheckedRound) ∧
    (env.listOk = false →
      (StartPaymentMonitorTick env s).lastCheckedRound = s.lastCheckedRound) := by
  refine ⟨?_, ?_, ?_⟩
  · intro h hs hl
    cases hrows : env.listRows <;>
      simp [StartPaymentMonitorTick, GetLatestRound, GetPendingPayments, hs, hl, hrows]
  · intro e hs
    simp [StartPaymentMonitorTick, GetLatestRound, hs]
  · intro hl
    unfold StartPaymentMonitorTick
    cases GetLatestRound env.status with
    | error e => rfl
    | ok r => simp [GetPendingPayments, hl]

/-- C4 at concrete ticks: from watermark 40, a tick reading height 50 ends at 50
whether the listed payment is matched or not, and a tick whose height read or
listing fails ends at 40. -/
theorem watermark_after_tick_witness :
    (StartPaymentMonitorTick (scenarioTick 50 1500000) scenarioSystem).lastCheckedRound = 50 ∧
    (StartPaymentMonitorTick (scenarioTick 50 900000) scenarioSystem).lastCheckedRound = 50 ∧
    (StartPaymentMonitorTick failedStatusTick scenarioSystem).lastCheckedRound = 40 ∧
    (StartPaymentMonitorTick failedListingTick scenarioSystem).lastCheckedRound = 40 :=
  ⟨(watermark_after_tick (scenarioTick 50 1500000) scenarioSystem).1 50 rfl rfl,
   (watermark_after_tick (scenarioTick 50 900000) scenarioSystem).1 50 rfl rfl,
   (watermark_after_tick failedStatusTick scenarioSystem).2.1 "connection refused" rfl,
   (watermark_after_tick failedListingTick scenarioSystem).2.2 rfl⟩

/-- C5 fails as stated: from watermark 40, a tick in which the node reports
height 30 ends with watermark 30. -/
theorem watermark_decreases_counterexample :
    ¬ (scenarioSystem.lastCheckedRound ≤
        (StartPaymentMonitorTick (scenarioTick 30 1500000) scenarioSystem).lastCheckedRound) := by
  decide

/-- C5 as amended: the watermark after a tick is at least the watermark before it
exactly when the height read fails, the listing fails, or the height the node
reports is at least the watermark before the tick. -/
theorem watermark_monotone_iff (env : TickEnv) (s : System) :
    s.lastCheckedRound ≤ (StartPaymentMonitorTick env s).lastCheckedRound ↔
      ((∃ e, env.status = .error e) ∨ env.listOk = false ∨
        ∃ h, env.status = .ok h ∧ s.lastCheckedRound ≤ h) := by
  cases hs : env.status with
  | error e =>
    simp [StartPaymentMonitorTick, GetLatestRound, hs]
  | ok h =>
    cases hl : env.listOk with
    | false =>
      simp [StartPaymentMonitorTick, GetLatestRound, GetPendingPayments, hs, hl]
    | true =>
      cases hrows : env.listRows <;>
        simp [StartPaymentMonitorTick, GetLatestRound, GetPendingPayments, hs, hl, hrows]

/-! ### The expiry sweeper -/

/-- A sweeper tick whose store operation succeeds keeps every row in its place,
sets to expired every pending row whose stored text compares `<=` to
CURRENT_TIMESTAMP, and leaves every other row unchanged. -/
theorem cleanupExpiredPaymentsTick_getElem (now : Int) (s : System) (i : Nat) (r : Row)
    (hr : s.db[i]? = some r) :
    ∃ r', (cleanupExpiredPaymentsTick now true s).db[i]? = some r' ∧ r'.id = r.id ∧
      (r.status = PaymentStatus.pending ∧ expiresAtLeNow r now →
        r'.status = PaymentStatus.expired) ∧
      (¬ (r.status = PaymentStatus.pending ∧ expiresAtLeNow r now) → r' = r) := by
  simp only [cleanupExpiredPaymentsTick, ExpireOldPayments_ok, List.getElem?_map, hr,
    Option.map_some']
  by_cases h : r.status = PaymentStatus.pending ∧ expiresAtLeNow r now
  · exact ⟨_, rfl, by simp [h], by simp [h], fun hn => absurd h hn⟩
  · exact ⟨_, rfl, by simp [h], fun hp => absurd hp h, fun _ => by simp [h]⟩

/-- C6 evaluated on three servers, each holding one payment created at time 0
with a timeout of 30 minutes, so that expiresAt is 1800 s. Seven hours west of
UTC a successful sweep at 100 s sets the payment to expired although its
expiresAt lies after now. One hour east of UTC a successful sweep at 2400 s
leaves it pending although its expiresAt lies before now. In UTC a successful
sweep at exactly 1800 s leaves it pending although expiresAt <= now. -/
theorem cleanup_tick_zone_failing_input :
    (run scenarioConfig initial [.init (.ok scenarioRequest) westInit]).db.map
      (fun r => (r.id, r.status, r.expires_at, r.expires_zone))
        = [("p1", PaymentStatus.pending, 1800000000000, -25200)] ∧
    (run scenarioConfig initial
        [.init (.ok scenarioRequest) westInit, .cleanup 100000000000 true]).db.map
      (fun r => (r.id, r.status, decide (r.expires_at ≤ 100000000000)))
        = [("p1", PaymentStatus.expired, false)] ∧
    (run scenarioConfig initial
        [.init (.ok scenarioRequest) eastInit, .cleanup 2400000000000 true]).db.map
      (fun r => (r.id, r.status, decide (r.expires_at ≤ 2400000000000)))
        = [("p1", PaymentStatus.pending, true)] ∧
    (run scenarioConfig initial
        [.init (.ok scenarioRequest) scenarioInit, .cleanup 1800000000000 true]).db.map
      (fun r => (r.id, r.status, decide (r.expires_at ≤ 1800000000000)))
        = [("p1", PaymentStatus.pending, true)] := by
  decide

/-! ### The notification dispatcher -/

theorem UpdatePaymentStatus_getElem (d : Table) (id : String) (status : PaymentStatus)
    (txnID : String) (now : Int) (d' : Table)
    (h : UpdatePaymentStatus d id status txnID now true = .ok d') (i : Nat) (r : Row)
    (hr : d[i]? = some r) :
    ∃ r', d'[i]? = some r' ∧ r'.id = r.id ∧
      (r.id = id → r'.status = status ∧ r'.txn_id = some txnID) ∧ (r.id ≠ id → r' = r) := by
  rw [UpdatePaymentStatus_ok] at h
  injection h with h
  subst h
  simp only [List.getElem?_map, hr, Option.map_some']
  by_cases hid : r.id = id
  · exact ⟨_, rfl, by simp [hid], fun _ => by simp [hid], fun hn => absurd hid hn⟩
  · exact ⟨_, rfl, by simp [hid], fun hp => absurd hp hid, fun _ => by simp [hid]⟩

/-- A successful dispatcher step on the event at the head of the queue writes the
status and txn id of the event to the rows with its id and leaves the others. -/
theorem processWebhooks_event_aux (now : Int) (s : System) (payment : Payment)
    (rest : List Payment) (hq : s.paymentChan = payment :: rest) :
    ∀ (i : Nat) (r : Row), s.db[i]? = some r →
      ∃ r', (processWebhooksStep now true s).db[i]? = some r' ∧ r'.id = r.id ∧
        (r.id = payment.ID →
          r'.status = payment.Status ∧ r'.txn_id = some payment.TxnID) ∧
        (r.id ≠ payment.ID → r' = r) := by
  intro i r hr
  have hdb : (processWebhooksStep now true s).db =
      s.db.map (fun r => if r.id = payment.ID then
        { r with status := payment.Status, txn_id := some payment.TxnID, updated_at := currentTimestamp now }
        else r) := by
    by_cases hc : payment.CallbackURL = "" <;>
      simp [processWebhooksStep, hq, UpdatePaymentStatus_ok, hc]
  rw [hdb]
  exact UpdatePaymentStatus_getElem s.db payment.ID payment.Status payment.TxnID now _
    (UpdatePaymentStatus_ok _ _ _ _ _) i r hr

/-- C9 fails as stated: an event with a callback URL is taken from the queue, the
store update fails, and no delivery attempt is started and nothing is written. -/
theorem processWebhooks_no_delivery_counterexample :
    scenarioQueued.paymentChan = [scenarioEvent] ∧ scenarioEvent.CallbackURL ≠ "" ∧
    (processWebhooksStep 200 false scenarioQueued).paymentChan = [] ∧
    (processWebhooksStep 200 false scenarioQueued).webhooks = [] ∧
    (processWebhooksStep 200 false scenarioQueued).db = scenarioQueued.db := by
  decide

/-- C9 as amended: for every event taken from the queue the dispatcher attempts to
write the status and txn id of the event to the rows with the id of the event.
When the write succeeds those rows hold them, all other rows are unchanged, and
exactly one delivery attempt is started if the callback URL is non-empty and none
if it is empty. When the write fails, nothing is written and no delivery attempt
is started. -/
theorem processWebhooks_event (now : Int) (execOk : Bool) (s : System) (payment : Payment)
    (rest : List Payment) (hq : s.paymentChan = payment :: rest) :
    (processWebhooksStep now execOk s).paymentChan = rest ∧
    (execOk = true →
      (∀ (i : Nat) (r : Row), s.db[i]? = some r →
        ∃ r', (processWebhooksStep now execOk s).db[i]? = some r' ∧ r'.id = r.id ∧
          (r.id = payment.ID →
            r'.status = payment.Status ∧ r'.txn_id = some payment.TxnID) ∧
          (r.id ≠ payment.ID → r' = r)) ∧
      (payment.CallbackURL ≠ "" →
        (processWebhooksStep now execOk s).webhooks = s.webhooks ++ [payment]) ∧
      (payment.CallbackURL = "" →
        (processWebhooksStep now execOk s).webhooks = s.webhooks)) ∧
    (execOk = false →
      (processWebhooksStep now execOk s).db = s.db ∧
      (processWebhooksStep now execOk s).webhooks = s.webhooks) := by
  refine ⟨?_, ?_, ?_⟩
  · cases execOk with
    | false => simp [processWebhooksStep, hq, UpdatePaymentStatus_fail]
    | true =>
      by_cases hc : payment.CallbackURL = "" <;>
        simp [processWebhooksStep, hq, UpdatePaymentStatus_ok, hc]
  · intro hok
    subst hok
    refine ⟨?_, ?_, ?_⟩
    · exact processWebhooks_event_aux now s payment rest hq
    · intro hc
      simp [processWebhooksStep, hq, UpdatePaymentStatus_ok, hc]
    · intro hc
      simp [processWebhooksStep, hq, UpdatePaymentStatus_ok, hc]
  · intro hok
    subst hok
    simp [processWebhooksStep, hq, UpdatePaymentStatus_fail]

/-- C9 as amended, on the queued scenario event with a successful write: the row
becomes completed with txn id TX1 and one delivery attempt is started. -/
theorem processWebhooks_event_witness :
    (∃ r', (processWebhooksStep 200 true scenarioQueued).db[0]? = some r' ∧
      r'.status = PaymentStatus.completed ∧ r'.txn_id = some "TX1") ∧
    (processWebhooksStep 200 true scenarioQueued).webhooks = [scenarioEvent] := by
  have h := processWebhooks_event 200 true scenarioQueued scenarioEvent [] rfl
  obtain ⟨r', h1, _, h2, _⟩ := (h.2.1 rfl).1 0 scenarioRow rfl
  exact ⟨⟨r', h1, h2 rfl⟩, (h.2.1 rfl).2.1 (by decide)⟩

/-! ### The queries of the matcher -/

/-- C10 evaluated on a request for asset 31566704 whose `axfer` query succeeds
with a qualifying transfer: when the `pay` query fails `CheckPayment` fails,
when the `pay` query succeeds it returns the transfer. -/
theorem CheckPayment_asa_depends_on_pay_query :
    asaPayment.AssetID ≠ 0 ∧
    asaIndexer (.error "timeout") (axferLookup asaPayment 40) = .ok [asaTransfer] ∧
    asaIndexer (.ok []) (axferLookup asaPayment 40) = .ok [asaTransfer] ∧
    CheckPayment (asaIndexer (.error "timeout")) asaPayment 40 =
      .error "failed to lookup transactions: timeout" ∧
    CheckPayment (asaIndexer (.ok [])) asaPayment 40 =
      .ok (some (axferTransaction asaPayment asaTransfer)) :=
  ⟨by decide, rfl, rfl, rfl, rfl⟩

/-! ### The reconciliation tick -/

theorem checkPayments_append (indexer : Nat → Indexer) (clock : Nat → Int) (w : Nat)
    (ps : List Payment) :
    ∀ (i : Nat) (chan : List Payment),
      checkPayments indexer clock w i ps chan = chan ++ checkPayments indexer clock w i ps [] := by
  induction ps with
  | nil => intro i chan; simp [checkPayments]
  | cons p rest ih =>
    intro i chan
    unfold checkPayments
    cases hc : CheckPayment (indexer i) p w with
    | error e => simpa using ih (i + 1) chan
    | ok o =>
      cases o with
      | none => simpa using ih (i + 1) chan
      | some txn =>
        simp only [List.nil_append]
        rw [ih (i + 1) (chan ++ [markCompleted p txn (clock i)]),
          ih (i + 1) [markCompleted p txn (clock i)]]
        simp

/-- Every matched payment of the listing is sent to the channel. -/
theorem checkPayments_mem_of_match (indexer : Nat → Indexer) (clock : Nat → Int) (w : Nat)
    (ps : List Payment) :
    ∀ (i : Nat) (chan : List Payment) (j : Nat) (p : Payment) (txn : Transaction),
      ps[j]? = some p → CheckPayment (indexer (i + j)) p w = .ok (some txn) →
      markCompleted p txn (clock (i + j)) ∈ checkPayments indexer clock w i ps chan := by
  induction ps with
  | nil => intro i chan j p txn hj; simp at hj
  | cons q rest ih =>
    intro i chan j p txn hj hc
    cases j with
    | zero =>
      simp only [List.getElem?_cons_zero, Option.some.injEq] at hj
      subst hj
      simp only [Nat.add_zero] at hc ⊢
      unfold checkPayments
      rw [hc]
      simp only
      rw [checkPayments_append]
      simp
    | succ j =>
      simp only [List.getElem?_cons_succ] at hj
      have hidx : i + (j + 1) = (i + 1) + j := by omega
      rw [hidx] at hc ⊢
      unfold checkPayments
      cases hq : CheckPayment (indexer i) q w with
      | error e => exact ih (i + 1) chan j p txn hj hc
      | ok o =>
        cases o with
        | none => exact ih (i + 1) chan j p txn hj hc
        | some t => exact ih (i + 1) _ j p txn hj hc

/-- Every event on the channel after the loop was there before or is a matched
payment of the listing, marked completed. -/
theorem checkPayments_sub (indexer : Nat → Indexer) (clock : Nat → Int) (w : Nat)
    (ps : List Payment) :
    ∀ (i : Nat) (chan : List Payment) (e : Payment),
      e ∈ checkPayments indexer clock w i ps chan →
      e ∈ chan ∨ ∃ j p txn, ps[j]? = some p ∧
        CheckPayment (indexer (i + j)) p w = .ok (some txn) ∧
        e = markCompleted p txn (clock (i + j)) := by
  induction ps with
  | nil => intro i chan e he; left; simpa [checkPayments] using he
  | cons q rest ih =>
    intro i chan e he
    unfold checkPayments at he
    have shift : ∀ chan0 : List Payment, (e ∈ chan0 ∨ ∃ j p txn, rest[j]? = some p ∧
          CheckPayment (indexer (i + 1 + j)) p w = .ok (some txn) ∧
          e = markCompleted p txn (clock (i + 1 + j))) →
        e ∈ chan0 ∨ ∃ j p txn, (q :: rest)[j]? = some p ∧
          CheckPayment (indexer (i + j)) p w = .ok (some txn) ∧
          e = markCompleted p txn (clock (i + j)) := by
      intro chan0 h
      rcases h with h | ⟨j, p, txn, hj, hc, hee⟩
      · exact Or.inl h
      · refine Or.inr ⟨j + 1, p, txn, by simpa using hj, ?_, ?_⟩
        · have hidx : i + (j + 1) = i + 1 + j := by omega
          rw [hidx]; exact hc
        · have hidx : i + (j + 1) = i + 1 + j := by omega
          rw [hidx]; exact hee
    cases hq : CheckPayment (indexer i) q w with
    | error err =>
      rw [hq] at he
      exact shift chan (ih (i + 1) chan e he)
    | ok o =>
      cases o with
      | none =>
        rw [hq] at he
        exact shift chan (ih (i + 1) chan e he)
      | some t =>
        rw [hq] at he
        rcases shift _ (ih (i + 1) _ e he) with h | h
        · rcases List.mem_append.mp h with h1 | h1
          · exact Or.inl h1
          · refine Or.inr ⟨0, q, t, by simp, by simpa using hq, ?_⟩
            simpa using h1
        · exact Or.inr h

theorem tick_paymentChan (env : TickEnv) (s : System) (h : Nat) (payments : List Payment)
    (hs : env.status = .ok h)
    (hl : GetPendingPayments s.db env.listNow env.listOk env.listRows = .ok payments) :
    (StartPaymentMonitorTick env s).paymentChan =
      checkPayments env.indexer env.clock s.lastCheckedRound 0 payments s.paymentChan := by
  simp [StartPaymentMonitorTick, GetLatestRound, hs, hl]

/-- Every payment of a listing by `GetPendingPayments` is the scan of a row of
the table whose status is pending. -/
theorem GetPendingPayments_pending (d : Table) (now : Int) (queryOk : Bool)
    (rowsRead : Option Nat) (payments : List Payment)
    (hl : GetPendingPayments d now queryOk rowsRead = .ok payments) (j : Nat) (p : Payment)
    (hj : payments[j]? = some p) :
    ∃ r ∈ d, r.status = PaymentStatus.pending ∧ scanRow r = p := by
  have hmem : p ∈ payments := List.mem_iff_getElem?.mpr ⟨j, hj⟩
  have hall : p ∈ (d.filter (fun r =>
      decide (r.status = PaymentStatus.pending) && decide (expiresAtGtNow r now))).map scanRow := by
    unfold GetPendingPayments at hl
    cases queryOk with
    | false => simp at hl
    | true =>
      cases rowsRead with
      | none =>
        simp only [if_true, Except.ok.injEq] at hl
        rw [hl]; exact hmem
      | some n =>
        simp only [if_true, Except.ok.injEq] at hl
        rw [← hl] at hmem
        exact List.mem_of_mem_take hmem
  obtain ⟨r, hr, hsc⟩ := List.mem_map.mp hall
  obtain ⟨hrd, hcond⟩ := List.mem_filter.mp hr
  simp only [Bool.and_eq_true, decide_eq_true_eq] at hcond
  exact ⟨r, hrd, hcond.1, hsc⟩

/-- C2 fails as stated: the payment is pending and active, the ledger holds a
qualifying transfer above the watermark and the matcher returns it, and after the
tick the stored status is still pending and the stored txn id is still NULL. -/
theorem tick_leaves_store_pending_counterexample :
    scenarioSystem.db = [scenarioRow] ∧ scenarioRow.status = PaymentStatus.pending ∧
    CheckPayment (scenarioIndexer 1500000) (scanRow scenarioRow) scenarioSystem.lastCheckedRound =
      .ok (some (payTransaction (scenarioTransfer 1500000))) ∧
    (StartPaymentMonitorTick (scenarioTick 50 1500000) scenarioSystem).db.map
      (fun r => (r.id, r.status, r.txn_id)) = [("p1", PaymentStatus.pending, none)] :=
  ⟨rfl, rfl, rfl, by decide⟩

/-- C2 as amended: every payment that the listing of a tick returns has stored
status pending; when the height read succeeds and the ledger queries for that
payment succeed with a response holding a qualifying transfer, the tick leaves
the store unchanged and puts on the queue the payment marked completed with the
id of the first qualifying transfer; once the dispatcher takes that event and
its store update succeeds, every row with the id of the payment has status
completed and that txn id. -/
theorem tick_then_dispatch_completes (env : TickEnv) (s : System) (h : Nat)
    (payments : List Payment) (j : Nat) (payment : Payment)
    (result asaResult : List IndexerTransaction)
    (hstatus : env.status = .ok h)
    (hlist : GetPendingPayments s.db env.listNow env.listOk env.listRows = .ok payments)
    (hj : payments[j]? = some payment)
    (hpay : env.indexer j (payLookup payment s.lastCheckedRound) = .ok result)
    (hasa : payment.AssetID ≠ 0 →
      env.indexer j (axferLookup payment s.lastCheckedRound) = .ok asaResult)
    (hqual : ∃ u ∈ returnedTransfers payment result asaResult,
      u.Receiver = payment.MerchantAddress ∧ payment.Amount ≤ u.Amount) :
    (∃ r ∈ s.db, r.id = payment.ID ∧ r.status = PaymentStatus.pending) ∧
    ∃ (t : Transaction) (pre post : List Transaction),
      returnedTransfers payment result asaResult = pre ++ t :: post ∧
      (t.Receiver = payment.MerchantAddress ∧ payment.Amount ≤ t.Amount) ∧
      (∀ u ∈ pre, ¬ (u.Receiver = payment.MerchantAddress ∧ payment.Amount ≤ u.Amount)) ∧
      (StartPaymentMonitorTick env s).db = s.db ∧
      markCompleted payment t (env.clock j) ∈ (StartPaymentMonitorTick env s).paymentChan ∧
      ∀ (s2 : System) (rest : List Payment) (now : Int),
        s2.paymentChan = markCompleted payment t (env.clock j) :: rest →
        ∀ (i : Nat) (r0 : Row), s2.db[i]? = some r0 → r0.id = payment.ID →
          ∃ r2, (processWebhooksStep now true s2).db[i]? = some r2 ∧ r2.id = payment.ID ∧
            r2.status = PaymentStatus.completed ∧ r2.txn_id = some t.ID := by
  refine ⟨?_, ?_⟩
  · obtain ⟨r, hr, hp, hsc⟩ := GetPendingPayments_pending s.db env.listNow env.listOk
      env.listRows payments hlist j payment hj
    exact ⟨r, hr, by rw [← hsc]; rfl, hp⟩
  have hspec := CheckPayment_eq_find (env.indexer j) payment
    s.lastCheckedRound result asaResult hpay hasa
  obtain ⟨u, hu, huq⟩ := hqual
  cases hf : List.find? (fun t => decide (Qualifies payment t))
      (returnedTransfers payment result asaResult) with
  | none =>
    rw [List.find?_eq_none] at hf
    have := hf u hu
    exact absurd (show Qualifies payment u from huq) (by simpa using this)
  | some t =>
    have hcp : CheckPayment (env.indexer j) payment s.lastCheckedRound = .ok (some t) := by
      rw [hspec, hf]
    rw [List.find?_eq_some] at hf
    obtain ⟨hq, pre, post, heq, hpre⟩ := hf
    have hq2 : Qualifies payment t := of_decide_eq_true hq
    refine ⟨t, pre, post, heq, hq2, ?_, tick_db env s, ?_, ?_⟩
    · intro u2 hu2
      have hn : ¬ Qualifies payment u2 := by simpa using hpre u2 hu2
      exact hn
    · rw [tick_paymentChan env s h payments hstatus hlist]
      have := checkPayments_mem_of_match env.indexer env.clock s.lastCheckedRound payments 0
        s.paymentChan j payment t hj (by simpa using hcp)
      simpa using this
    · intro s2 rest now hq0 i r0 hr0 hid
      obtain ⟨r2, h1, h2, h3, _⟩ :=
        ((processWebhooks_event_aux now s2 _ rest hq0) i r0 hr0)
      have hid2 : r0.id = (markCompleted payment t (env.clock j)).ID := by
        rw [hid]; rfl
      exact ⟨r2, h1, by rw [h2, hid], (h3 hid2).1, (h3 hid2).2⟩

/-- C2 as amended, on the scenario: the tick lists the payment and queues it as
completed with txn id TX1, and a dispatcher step on that event stores status
completed and txn id TX1. -/
theorem tick_then_dispatch_completes_witness :
    ∃ t : Transaction, t.ID = "TX1" ∧
      markCompleted scenarioPayment t ((scenarioTick 50 1500000).clock 0) ∈
        (StartPaymentMonitorTick (scenarioTick 50 1500000) scenarioSystem).paymentChan ∧
      ∃ r2, (processWebhooksStep 200 true
          { scenarioSystem with
            paymentChan :=
              [markCompleted scenarioPayment t ((scenarioTick 50 1500000).clock 0)] }).db[0]?
          = some r2 ∧ r2.status = PaymentStatus.completed ∧ r2.txn_id = some "TX1" := by
  obtain ⟨_, t, pre, post, heq, _, hpre, _, hmem, hdisp⟩ :=
    tick_then_dispatch_completes (scenarioTick 50 1500000) scenarioSystem 50
      [scenarioPayment] 0 scenarioPayment [scenarioTransfer 1500000] [] rfl rfl rfl rfl
      (fun h0 => absurd rfl h0) ⟨payTransaction (scenarioTransfer 1500000), by decide, by decide⟩
  have h0 : returnedTransfers scenarioPayment [scenarioTransfer 1500000] []
      = [payTransaction (scenarioTransfer 1500000)] := rfl
  rw [h0] at heq
  have hid : t.ID = "TX1" := by
    cases pre with
    | nil =>
      simp only [List.nil_append, List.cons.injEq] at heq
      rw [← heq.1]; rfl
    | cons a pre =>
      have hlen := congrArg List.length heq
      simp at hlen
  obtain ⟨r2, h1, _, h2, h3⟩ := hdisp
    { scenarioSystem with
      paymentChan := [markCompleted scenarioPayment t ((scenarioTick 50 1500000).clock 0)] }
    [] 200 rfl 0 scenarioRow rfl rfl
  exact ⟨t, hid, hmem, r2, h1, h2, by rw [h3, hid]⟩

/-- C8 fails as stated: on a match the tick puts the event on the queue while
the store is not updated, the stored status staying pending. -/
theorem tick_enqueues_before_store_counterexample :
    (StartPaymentMonitorTick (scenarioTick 50 1500000) scenarioSystem).paymentChan =
      [scenarioEvent] ∧
    (StartPaymentMonitorTick (scenarioTick 50 1500000) scenarioSystem).db = scenarioSystem.db ∧
    (StartPaymentMonitorTick (scenarioTick 50 1500000) scenarioSystem).db.map
      (fun r => r.status) = [PaymentStatus.pending] := by
  decide

/-- C8 as amended: a reconciliation tick never writes the store and starts no
delivery; on a match it puts the payment, marked completed with the matched txn
id, on the queue whatever the store holds. The store update is made by the
dispatcher when it takes the event, and a delivery attempt is started only if
that store update succeeded, the rows with the id of the event then holding its
status and txn id. -/
theorem tick_enqueues_dispatcher_updates (env : TickEnv) (s : System) :
    (StartPaymentMonitorTick env s).db = s.db ∧
    (StartPaymentMonitorTick env s).webhooks = s.webhooks ∧
    (∀ (h : Nat) (payments : List Payment) (j : Nat) (payment : Payment) (txn : Transaction),
      env.status = .ok h →
      GetPendingPayments s.db env.listNow env.listOk env.listRows = .ok payments →
      payments[j]? = some payment →
      CheckPayment (env.indexer j) payment s.lastCheckedRound = .ok (some txn) →
      markCompleted payment txn (env.clock j) ∈ (StartPaymentMonitorTick env s).paymentChan) ∧
    (∀ (now : Int) (execOk : Bool),
      (processWebhooksStep now execOk s).webhooks ≠ s.webhooks →
      execOk = true ∧ ∃ e rest, s.paymentChan = e :: rest ∧
        (processWebhooksStep now execOk s).webhooks = s.webhooks ++ [e] ∧
        ∀ (i : Nat) (r : Row), s.db[i]? = some r → r.id = e.ID →
          ∃ r', (processWebhooksStep now execOk s).db[i]? = some r' ∧
            r'.status = e.Status ∧ r'.txn_id = some e.TxnID) := by
  refine ⟨tick_db env s, tick_webhooks env s, ?_, ?_⟩
  · intro h payments j payment txn hs hl hj hc
    rw [tick_paymentChan env s h payments hs hl]
    have := checkPayments_mem_of_match env.indexer env.clock s.lastCheckedRound payments 0
      s.paymentChan j payment txn hj (by simpa using hc)
    simpa using this
  · intro now execOk hne
    cases hq : s.paymentChan with
    | nil => exact absurd (by simp [processWebhooksStep, hq]) hne
    | cons e rest =>
      cases execOk with
      | false =>
        exact absurd (by simp [processWebhooksStep, hq, UpdatePaymentStatus_fail]) hne
      | true =>
        by_cases hc : e.CallbackURL = ""
        · exact absurd (by simp [processWebhooksStep, hq, UpdatePaymentStatus_ok, hc]) hne
        · refine ⟨rfl, e, rest, rfl, by simp [processWebhooksStep, hq, UpdatePaymentStatus_ok, hc],
            ?_⟩
          intro i r hr hid
          obtain ⟨r', h1, _, h3, _⟩ := processWebhooks_event_aux now s e rest hq i r hr
          exact ⟨r', h1, h3 hid⟩

/-- C8 as amended, on the scenario: the tick queues the completed event, and the
dispatcher step that starts its delivery has stored status completed and TX1. -/
theorem tick_enqueues_dispatcher_updates_witness :
    markCompleted scenarioPayment (payTransaction (scenarioTransfer 1500000)) 101 ∈
      (StartPaymentMonitorTick (scenarioTick 50 1500000) scenarioSystem).paymentChan ∧
    ∃ r', (processWebhooksStep 200 true scenarioQueued).db[0]? = some r' ∧
      r'.status = PaymentStatus.completed ∧ r'.txn_id = some "TX1" := by
  refine ⟨(tick_enqueues_dispatcher_updates (scenarioTick 50 1500000) scenarioSystem).2.2.1
      50 [scenarioPayment] 0 scenarioPayment _ rfl rfl rfl rfl, ?_⟩
  obtain ⟨_, e, rest, hq, _, h⟩ :=
    (tick_enqueues_dispatcher_updates (scenarioTick 50 1500000) scenarioQueued).2.2.2
      200 true (by decide)
  have he : e = scenarioEvent := by
    have : scenarioQueued.paymentChan = [scenarioEvent] := rfl
    rw [this] at hq
    simp only [List.cons.injEq] at hq
    exact hq.1.symm
  subst he
  obtain ⟨r', h1, h2, h3⟩ := h 0 scenarioRow rfl rfl
  exact ⟨r', h1, h2, h3⟩

/-! ### Runs of the server -/

theorem run_cons (cfg : Config) (s : System) (st : Step) (steps : List Step) :
    run cfg s (st :: steps) = run cfg (step cfg s st) steps := rfl

theorem initPayment_paymentChan (cfg : Config) (req : Except String PaymentRequest)
    (env : InitEnv) (s : System) :
    (initPayment cfg req env s).paymentChan = s.paymentChan := by
  unfold initPayment
  cases req with
  | error e => rfl
  | ok req =>
    by_cases h0 : req.Amount = 0
    · simp [h0]
    · simp only [h0, if_false]
      cases CreatePayment s.db (newPayment cfg req env) env.zone env.execOk with
      | error e => rfl
      | ok d => rfl

/-- The table after `initPayment` is the table before, or the table before with
one new pending row without txn id appended. -/
theorem initPayment_db (cfg : Config) (req : Except String PaymentRequest)
    (env : InitEnv) (s : System) :
    (initPayment cfg req env s).db = s.db ∨
      ∃ row : Row, row.status = PaymentStatus.pending ∧ row.txn_id = none ∧
        (initPayment cfg req env s).db = s.db ++ [row] := by
  unfold initPayment
  cases req with
  | error e => exact Or.inl rfl
  | ok req =>
    by_cases h0 : req.Amount = 0
    · simp [h0]
    · simp only [h0, if_false]
      unfold CreatePayment
      by_cases hc : env.execOk = true ∧
          s.db.all (fun r => decide (r.id ≠ (newPayment cfg req env).ID)) = true
      · rw [if_pos hc]
        exact Or.inr ⟨_, rfl, rfl, rfl⟩
      · rw [if_neg hc]
        exact Or.inl rfl

theorem processWebhooksStep_paymentChan (now : Int) (execOk : Bool) (s : System) :
    (processWebhooksStep now execOk s).paymentChan = s.paymentChan.tail := by
  unfold processWebhooksStep
  cases hq : s.paymentChan with
  | nil => simp [hq]
  | cons e rest =>
    simp only
    cases UpdatePaymentStatus s.db e.ID e.Status e.TxnID now execOk with
    | error err => rfl
    | ok d =>
      by_cases hc : e.CallbackURL = "" <;> simp [hc]

/-- The table after a dispatcher step is the table before, or the table before
with the status and txn id of the oldest event written to the rows with its id. -/
theorem processWebhooksStep_db (now : Int) (execOk : Bool) (s : System) :
    (processWebhooksStep now execOk s).db = s.db ∨
      ∃ e rest, s.paymentChan = e :: rest ∧ execOk = true ∧
        (processWebhooksStep now execOk s).db = s.db.map (fun r =>
          if r.id = e.ID then
            { r with status := e.Status, txn_id := some e.TxnID, updated_at := currentTimestamp now }
          else r) := by
  cases hq : s.paymentChan with
  | nil => left; simp [processWebhooksStep, hq]
  | cons e rest =>
    cases execOk with
    | false => left; simp [processWebhooksStep, hq, UpdatePaymentStatus_fail]
    | true =>
      right
      refine ⟨e, rest, rfl, rfl, ?_⟩
      by_cases hc : e.CallbackURL = "" <;>
        simp [processWebhooksStep, hq, UpdatePaymentStatus_ok, hc]

/-- The table after a sweeper tick is the table before, or the table before with
the overdue pending rows set to expired. -/
theorem cleanupExpiredPaymentsTick_db (now : Int) (execOk : Bool) (s : System) :
    ((cleanupExpiredPaymentsTick now execOk s).db = s.db ∧ execOk = false) ∨
      (execOk = true ∧ (cleanupExpiredPaymentsTick now execOk s).db = s.db.map (fun r =>
        if r.status = PaymentStatus.pending ∧ expiresAtLeNow r now then
          { r with status := PaymentStatus.expired, updated_at := currentTimestamp now }
        else r)) := by
  cases execOk with
  | false => left; simp [cleanupExpiredPaymentsTick, ExpireOldPayments]
  | true => right; simp [cleanupExpiredPaymentsTick, ExpireOldPayments_ok]

theorem tick_paymentChan_sub (env : TickEnv) (s : System) (e : Payment)
    (he : e ∈ (StartPaymentMonitorTick env s).paymentChan) :
    e ∈ s.paymentChan ∨ ∃ (j : Nat) (p : Payment) (txn : Transaction),
      CheckPayment (env.indexer j) p s.lastCheckedRound = .ok (some txn) ∧
      e = markCompleted p txn (env.clock j) := by
  unfold StartPaymentMonitorTick at he
  cases hs : GetLatestRound env.status with
  | error err => rw [hs] at he; exact Or.inl he
  | ok h =>
    rw [hs] at he
    cases hl : GetPendingPayments s.db env.listNow env.listOk env.listRows with
    | error err => rw [hl] at he; exact Or.inl he
    | ok payments =>
      rw [hl] at he
      rcases checkPayments_sub env.indexer env.clock s.lastCheckedRound payments 0
        s.paymentChan e he with h1 | ⟨j, p, txn, _, hc, hee⟩
      · exact Or.inl h1
      · exact Or.inr ⟨j, p, txn, by simpa using hc, by simpa using hee⟩

/-- Every step keeps all waiting events completed. -/
theorem step_queueCompleted (cfg : Config) (s : System) (st : Step) (h : QueueCompleted s) :
    QueueCompleted (step cfg s st) := by
  intro e he
  cases st with
  | init req env =>
    simp only [step, initPayment_paymentChan] at he
    exact h e he
  | monitor env =>
    rcases tick_paymentChan_sub env s e he with h1 | ⟨j, p, txn, _, hee⟩
    · exact h e h1
    · rw [hee]; rfl
  | webhook now execOk =>
    simp only [step, processWebhooksStep_paymentChan] at he
    exact h e (List.mem_of_mem_tail he)
  | cleanup now execOk =>
    have : (step cfg s (Step.cleanup now execOk)).paymentChan = s.paymentChan := by
      simp only [step, cleanupExpiredPaymentsTick]
      cases ExpireOldPayments s.db now execOk with
      | error err => rfl
      | ok d => rfl
    rw [this] at he
    exact h e he
  | reboot =>
    simp [step, restart] at he

/-- Every step keeps the stored txn ids non-NULL exactly on the completed rows. -/
theorem step_txnIffCompleted (cfg : Config) (s : System) (st : Step) (hq : QueueCompleted s)
    (h : TxnIffCompleted s) : TxnIffCompleted (step cfg s st) := by
  intro r hr
  cases st with
  | init req env =>
    rcases initPayment_db cfg req env s with h1 | ⟨row, hp, hn, h1⟩
    · simp only [step, h1] at hr
      exact h r hr
    · simp only [step, h1, List.mem_append, List.mem_singleton] at hr
      rcases hr with hr | hr
      · exact h r hr
      · subst hr
        simp [hp, hn]
  | monitor env =>
    simp only [step, tick_db] at hr
    exact h r hr
  | webhook now execOk =>
    rcases processWebhooksStep_db now execOk s with h1 | ⟨e, rest, hch, _, h1⟩
    · simp only [step, h1] at hr
      exact h r hr
    · simp only [step, h1, List.mem_map] at hr
      obtain ⟨r0, hr0, hf⟩ := hr
      have hes : e.Status = PaymentStatus.completed := hq e (by rw [hch]; simp)
      by_cases hid : r0.id = e.ID
      · rw [if_pos hid] at hf
        subst hf
        simp [hes]
      · rw [if_neg hid] at hf
        subst hf
        exact h r0 hr0
  | cleanup now execOk =>
    rcases cleanupExpiredPaymentsTick_db now execOk s with ⟨h1, _⟩ | ⟨_, h1⟩
    · simp only [step, h1] at hr
      exact h r hr
    · simp only [step, h1, List.mem_map] at hr
      obtain ⟨r0, hr0, hf⟩ := hr
      by_cases hc : r0.status = PaymentStatus.pending ∧ expiresAtLeNow r0 now
      · rw [if_pos hc] at hf
        subst hf
        have h0 := h r0 hr0
        rw [hc.1] at h0
        have hnone : r0.txn_id = none := by
          by_contra hx
          exact absurd (h0.mp hx) (by decide)
        simp [hnone]
      · rw [if_neg hc] at hf
        subst hf
        exact h r0 hr0
  | reboot =>
    exact h r hr

theorem run_invariants (cfg : Config) (steps : List Step) :
    ∀ s : System, QueueCompleted s → TxnIffCompleted s →
      QueueCompleted (run cfg s steps) ∧ TxnIffCompleted (run cfg s steps) := by
  induction steps with
  | nil => intro s h1 h2; exact ⟨h1, h2⟩
  | cons st steps ih =>
    intro s h1 h2
    rw [run_cons]
    exact ih _ (step_queueCompleted cfg s st h1) (step_txnIffCompleted cfg s st h1 h2)

theorem initial_invariants : QueueCompleted initial ∧ TxnIffCompleted initial := by
  constructor
  · intro e he; simp [initial] at he
  · intro r hr; simp [initial] at hr

/-! ### Status transitions in the store -/

/-- C3 fails as stated. In `raceRun` the row is expired by the sweeper, which runs
one second after the expiry time, and then set to completed by the dispatcher;
in `doubleMatchRun` the row is completed with txn id TX1 and then its txn id is
changed to TX9. -/
theorem terminal_status_rewritten_counterexample :
    (run scenarioConfig initial (raceRun.take 3)).db.map (fun r => (r.id, r.status, r.txn_id))
      = [("p1", PaymentStatus.expired, none)] ∧
    (run scenarioConfig initial raceRun).db.map (fun r => (r.id, r.status, r.txn_id))
      = [("p1", PaymentStatus.completed, some "TX1")] ∧
    (run scenarioConfig initial (doubleMatchRun.take 4)).db.map
      (fun r => (r.id, r.status, r.txn_id)) = [("p1", PaymentStatus.completed, some "TX1")] ∧
    (run scenarioConfig initial doubleMatchRun).db.map (fun r => (r.id, r.status, r.txn_id))
      = [("p1", PaymentStatus.completed, some "TX9")] := by
  decide

/-- C3 as amended: in every run from the first start, each step keeps every row
in its place with its id, and either leaves its status and txn id unchanged, or
is a successful sweeper tick taking it from pending to expired with its txn id
unchanged, or is a successful dispatcher step setting it to completed with a
txn id, whatever its status was. So the reconciliation tick and the sweeper
never change a completed, expired or failed row; only a dispatcher write does. -/
theorem stored_status_changes (cfg : Config) (steps : List Step) (st : Step) (i : Nat)
    (r : Row) (hr : (run cfg initial steps).db[i]? = some r) :
    ∃ r', (step cfg (run cfg initial steps) st).db[i]? = some r' ∧ r'.id = r.id ∧
      ((r'.status = r.status ∧ r'.txn_id = r.txn_id) ∨
       (r.status = PaymentStatus.pending ∧ r'.status = PaymentStatus.expired ∧
         r'.txn_id = r.txn_id ∧ ∃ now, st = Step.cleanup now true) ∨
       (r'.status = PaymentStatus.completed ∧ r'.txn_id ≠ none ∧
         ∃ now, st = Step.webhook now true)) := by
  have hinv := run_invariants cfg steps initial initial_invariants.1 initial_invariants.2
  generalize run cfg initial steps = s at hr hinv
  cases st with
  | init req env =>
    rcases initPayment_db cfg req env s with h1 | ⟨row, _, _, h1⟩
    · exact ⟨r, by simp only [step, h1]; exact hr, rfl, Or.inl ⟨rfl, rfl⟩⟩
    · refine ⟨r, ?_, rfl, Or.inl ⟨rfl, rfl⟩⟩
      simp only [step, h1]
      obtain ⟨hlt, _⟩ := List.getElem?_eq_some.mp hr
      rw [List.getElem?_append_left hlt]
      exact hr
  | monitor env =>
    exact ⟨r, by simp only [step, tick_db]; exact hr, rfl, Or.inl ⟨rfl, rfl⟩⟩
  | webhook now execOk =>
    rcases processWebhooksStep_db now execOk s with h1 | ⟨e, rest, hch, hok, h1⟩
    · exact ⟨r, by simp only [step, h1]; exact hr, rfl, Or.inl ⟨rfl, rfl⟩⟩
    · subst hok
      simp only [step, h1, List.getElem?_map, hr, Option.map_some']
      have hes : e.Status = PaymentStatus.completed := hinv.1 e (by rw [hch]; simp)
      by_cases hid : r.id = e.ID
      · exact ⟨_, rfl, by simp [hid], Or.inr (Or.inr ⟨by simp [hid, hes], by simp [hid], now, rfl⟩)⟩
      · exact ⟨_, rfl, by simp [hid], Or.inl (by simp [hid])⟩
  | cleanup now execOk =>
    rcases cleanupExpiredPaymentsTick_db now execOk s with ⟨h1, _⟩ | ⟨hok, h1⟩
    · exact ⟨r, by simp only [step, h1]; exact hr, rfl, Or.inl ⟨rfl, rfl⟩⟩
    · subst hok
      simp only [step, h1, List.getElem?_map, hr, Option.map_some']
      by_cases hc : r.status = PaymentStatus.pending ∧ expiresAtLeNow r now
      · exact ⟨_, rfl, by simp [hc], Or.inr (Or.inl ⟨hc.1, by simp [hc], by simp [hc], now, rfl⟩)⟩
      · exact ⟨_, rfl, by simp [hc], Or.inl (by simp [hc])⟩
  | reboot =>
    exact ⟨r, hr, rfl, Or.inl ⟨rfl, rfl⟩⟩

/-- C3 as amended, at the dispatcher step of `raceRun`: the expired row is
rewritten by a dispatcher step, the third case of the theorem. -/
theorem stored_status_changes_witness :
    ∃ r', (step scenarioConfig (run scenarioConfig initial (raceRun.take 3))
        (Step.webhook 1801000000001 true)).db[0]? = some r' ∧ r'.id = "p1" ∧
      ((r'.status = PaymentStatus.expired ∧ r'.txn_id = none) ∨
       (PaymentStatus.expired = PaymentStatus.pending ∧ r'.status = PaymentStatus.expired ∧
         r'.txn_id = none ∧ ∃ now, Step.webhook 1801000000001 true = Step.cleanup now true) ∨
       (r'.status = PaymentStatus.completed ∧ r'.txn_id ≠ none ∧
         ∃ now, Step.webhook 1801000000001 true = Step.webhook now true)) :=
  stored_status_changes scenarioConfig (raceRun.take 3) (Step.webhook 1801000000001 true) 0
    { scenarioRow with
      status := PaymentStatus.expired
      expires_at := 1800000000000
      updated_at := 1801000000000 }
    (by decide)

/-! ### The stored txn id -/

theorem scanPay_some_mem (payment : Payment) (l : List IndexerTransaction) (t : Transaction)
    (h : scanPay payment l = some t) : ∃ x ∈ l, t.ID = x.Id := by
  induction l with
  | nil => simp [scanPay] at h
  | cons txn rest ih =>
    unfold scanPay at h
    by_cases hc : txn.PaymentTransaction.Receiver = payment.MerchantAddress ∧
        txn.PaymentTransaction.Amount ≥ payment.Amount
    · rw [if_pos hc] at h
      injection h with h
      exact ⟨txn, by simp, by rw [← h]; rfl⟩
    · rw [if_neg hc] at h
      obtain ⟨x, hx, hid⟩ := ih h
      exact ⟨x, List.mem_cons_of_mem _ hx, hid⟩

theorem scanAxfer_some_mem (payment : Payment) (l : List IndexerTransaction) (t : Transaction)
    (h : scanAxfer payment l = some t) : ∃ x ∈ l, t.ID = x.Id := by
  induction l with
  | nil => simp [scanAxfer] at h
  | cons txn rest ih =>
    unfold scanAxfer at h
    by_cases hc : txn.AssetTransferTransaction.Receiver = payment.MerchantAddress ∧
        txn.AssetTransferTransaction.Amount ≥ payment.Amount
    · rw [if_pos hc] at h
      injection h with h
      exact ⟨txn, by simp, by rw [← h]; rfl⟩
    · rw [if_neg hc] at h
      obtain ⟨x, hx, hid⟩ := ih h
      exact ⟨x, List.mem_cons_of_mem _ hx, hid⟩

/-- The id of the transfer returned by `CheckPayment` is the id of a transaction
of a response of the indexer. -/
theorem CheckPayment_id_mem (idx : Indexer) (payment : Payment) (w : Nat) (t : Transaction)
    (h : CheckPayment idx payment w = .ok (some t)) :
    ∃ q l, idx q = .ok l ∧ ∃ x ∈ l, t.ID = x.Id := by
  unfold CheckPayment at h
  cases hp : idx (payLookup payment w) with
  | error err => rw [hp] at h; simp at h
  | ok result =>
    rw [hp] at h
    by_cases h0 : payment.AssetID = 0
    · simp only [h0, if_true, ne_eq, not_true_eq_false, if_false] at h
      cases hs : scanPay payment result with
      | none => rw [hs] at h; simp at h
      | some t0 =>
        rw [hs] at h
        simp only [Except.ok.injEq, Option.some.injEq] at h
        subst h
        exact ⟨_, _, hp, scanPay_some_mem payment result t0 hs⟩
    · simp only [h0, if_false, ne_eq, not_false_eq_true, if_true] at h
      cases ha : idx (axferLookup payment w) with
      | error err => rw [ha] at h; simp at h
      | ok asaResult =>
        rw [ha] at h
        simp only at h
        cases hs : scanAxfer payment asaResult with
        | none => rw [hs] at h; simp at h
        | some t0 =>
          rw [hs] at h
          simp only [Except.ok.injEq, Option.some.injEq] at h
          subst h
          exact ⟨_, _, ha, scanAxfer_some_mem payment asaResult t0 hs⟩

/-- A step whose indexer responses carry non-empty ids keeps every stored txn id
and every txn id of a waiting event non-empty. -/
theorem step_txnNonEmpty (cfg : Config) (s : System) (st : Step) (hst : StepIdsNonEmpty st)
    (h : TxnNonEmpty s) : TxnNonEmpty (step cfg s st) := by
  cases st with
  | init req env =>
    refine ⟨?_, ?_⟩
    · intro r hr
      rcases initPayment_db cfg req env s with h1 | ⟨row, _, hn, h1⟩
      · simp only [step, h1] at hr
        exact h.1 r hr
      · simp only [step, h1, List.mem_append, List.mem_singleton] at hr
        rcases hr with hr | hr
        · exact h.1 r hr
        · subst hr
          simp [hn]
    · intro e he
      simp only [step, initPayment_paymentChan] at he
      exact h.2 e he
  | monitor env =>
    refine ⟨?_, ?_⟩
    · intro r hr
      simp only [step, tick_db] at hr
      exact h.1 r hr
    · intro e he
      rcases tick_paymentChan_sub env s e he with h1 | ⟨j, p, txn, hc, hee⟩
      · exact h.2 e h1
      · obtain ⟨q, l, hq, x, hx, hid⟩ := CheckPayment_id_mem _ _ _ _ hc
        have hne : x.Id ≠ "" := hst j q l hq x hx
        rw [hee]
        show txn.ID ≠ ""
        rw [hid]
        exact hne
  | webhook now execOk =>
    refine ⟨?_, ?_⟩
    · intro r hr
      rcases processWebhooksStep_db now execOk s with h1 | ⟨e, rest, hch, _, h1⟩
      · simp only [step, h1] at hr
        exact h.1 r hr
      · simp only [step, h1, List.mem_map] at hr
        obtain ⟨r0, hr0, hf⟩ := hr
        have hne : e.TxnID ≠ "" := h.2 e (by rw [hch]; simp)
        by_cases hid : r0.id = e.ID
        · rw [if_pos hid] at hf
          subst hf
          simpa using hne
        · rw [if_neg hid] at hf
          subst hf
          exact h.1 r0 hr0
    · intro e he
      simp only [step, processWebhooksStep_paymentChan] at he
      exact h.2 e (List.mem_of_mem_tail he)
  | cleanup now execOk =>
    refine ⟨?_, ?_⟩
    · intro r hr
      rcases cleanupExpiredPaymentsTick_db now execOk s with ⟨h1, _⟩ | ⟨_, h1⟩
      · simp only [step, h1] at hr
        exact h.1 r hr
      · simp only [step, h1, List.mem_map] at hr
        obtain ⟨r0, hr0, hf⟩ := hr
        by_cases hc : r0.status = PaymentStatus.pending ∧ expiresAtLeNow r0 now
        · rw [if_pos hc] at hf
          subst hf
          exact h.1 r0 hr0
        · rw [if_neg hc] at hf
          subst hf
          exact h.1 r0 hr0
    · intro e he
      have : (step cfg s (Step.cleanup now execOk)).paymentChan = s.paymentChan := by
        simp only [step, cleanupExpiredPaymentsTick]
        cases ExpireOldPayments s.db now execOk with
        | error err => rfl
        | ok d => rfl
      rw [this] at he
      exact h.2 e he
  | reboot =>
    exact ⟨h.1, by intro e he; simp [step, restart] at he⟩

theorem run_txnNonEmpty (cfg : Config) (steps : List Step) :
    ∀ s : System, (∀ st ∈ steps, StepIdsNonEmpty st) → TxnNonEmpty s →
      TxnNonEmpty (run cfg s steps) := by
  induction steps with
  | nil => intro s _ h; exact h
  | cons st steps ih =>
    intro s hall h
    rw [run_cons]
    exact ih _ (fun st2 h2 => hall st2 (List.mem_cons_of_mem _ h2))
      (step_txnNonEmpty cfg s st (hall st (List.mem_cons_self _ _)) h)

/-- C7 fails as stated: when the indexer returns a qualifying transfer with an
empty id, the payment is stored as completed with the empty string as txn id. -/
theorem completed_with_empty_txn_counterexample :
    (run scenarioConfig initial emptyIdRun).db.map (fun r => (r.id, r.status, r.txn_id))
      = [("p1", PaymentStatus.completed, some "")] := by
  decide

/-- C7 as amended: in every store state reached from the first start by payment
creation, reconciliation ticks, dispatcher steps, sweeper ticks and restarts, a
row has a non-NULL txn id exactly when its status is completed; and when every
transaction returned by the indexer during the run carries a non-empty id, a row
has a non-NULL and non-empty txn id exactly when its status is completed. -/
theorem txn_id_set_iff_completed (cfg : Config) (steps : List Step) (r : Row)
    (hr : r ∈ (run cfg initial steps).db) :
    (r.txn_id ≠ none ↔ r.status = PaymentStatus.completed) ∧
    ((∀ st ∈ steps, StepIdsNonEmpty st) →
      ((∃ t, r.txn_id = some t ∧ t ≠ "") ↔ r.status = PaymentStatus.completed)) := by
  have hinv := (run_invariants cfg steps initial initial_invariants.1 initial_invariants.2).2 r hr
  refine ⟨hinv, ?_⟩
  intro hall
  have hne := (run_txnNonEmpty cfg steps initial hall
    ⟨by intro r hr; simp [initial] at hr, by intro e he; simp [initial] at he⟩).1 r hr
  constructor
  · rintro ⟨t, ht, _⟩
    exact hinv.mp (by rw [ht]; simp)
  · intro hc
    have hsome := hinv.mpr hc
    cases htx : r.txn_id with
    | none => exact absurd htx hsome
    | some t =>
      refine ⟨t, rfl, ?_⟩
      intro h0
      rw [htx, h0] at hne
      exact hne rfl

/-- C7 as amended, on the completed row of `raceRun`, whose indexer responses
carry the id TX1. -/
theorem txn_id_set_iff_completed_witness :
    ∃ r, r ∈ (run scenarioConfig initial raceRun).db ∧ r.id = "p1" ∧
      r.status = PaymentStatus.completed ∧
      (r.txn_id ≠ none ↔ r.status = PaymentStatus.completed) ∧
      ((∃ t, r.txn_id = some t ∧ t ≠ "") ↔ r.status = PaymentStatus.completed) := by
  have hdb : (run scenarioConfig initial raceRun).db =
      [{ scenarioRow with
         status := PaymentStatus.completed
         txn_id := some "TX1"
         expires_at := 1800000000000
         updated_at := 1801000000000 }] := by
    decide
  have hmem : ({ scenarioRow with
      status := PaymentStatus.completed
      txn_id := some "TX1"
      expires_at := 1800000000000
      updated_at := 1801000000000 } : Row) ∈ (run scenarioConfig initial raceRun).db := by
    rw [hdb]
    exact List.mem_singleton.mpr rfl
  have h := txn_id_set_iff_completed scenarioConfig raceRun _ hmem
  refine ⟨_, hmem, rfl, rfl, h.1, h.2 ?_⟩
  intro st hst
  simp only [raceRun, List.mem_cons, List.mem_singleton, List.not_mem_nil, or_false] at hst
  rcases hst with rfl | rfl | rfl | rfl
  · trivial
  · intro i q l hq x hx
    simp only [scenarioTick, scenarioIndexer] at hq
    split at hq
    · injection hq with hq
      subst hq
      simp only [List.mem_singleton] at hx
      subst hx
      decide
    · injection hq with hq
      subst hq
      simp at hx
  · trivial
  · trivial

/-! ### The expiry time of a new payment -/

theorem wrapInt64_of_fits (z : Int) (h1 : -9223372036854775808 ≤ z)
    (h2 : z ≤ 9223372036854775807) : wrapInt64 z = z := by
  unfold wrapInt64
  omega

/-- The row appended by `initPayment` is the row of the record `newPayment`. -/
theorem initPayment_row (cfg : Config) (req : Except String PaymentRequest) (env : InitEnv)
    (s : System) (row : Row) (hrow : (initPayment cfg req env s).db = s.db ++ [row]) :
    ∃ r, req = .ok r ∧ row.id = env.uuid ∧ row.created_at = (newPayment cfg r env).CreatedAt ∧
      row.expires_at = (newPayment cfg r env).ExpiresAt ∧ row.status = PaymentStatus.pending := by
  have hne : (initPayment cfg req env s).db ≠ s.db := by
    rw [hrow]
    intro h
    have := congrArg List.length h
    simp at this
  unfold initPayment at hrow hne
  cases req with
  | error e => exact absurd rfl hne
  | ok r =>
    by_cases h0 : r.Amount = 0
    · simp [h0] at hne
    · simp only [h0, if_false] at hrow hne
      unfold CreatePayment at hrow hne
      by_cases hc : env.execOk = true ∧
          s.db.all (fun x => decide (x.id ≠ (newPayment cfg r env).ID)) = true
      · rw [if_pos hc] at hrow
        simp only [List.append_cancel_left_eq, List.cons.injEq, and_true] at hrow
        subst hrow
        exact ⟨r, rfl, rfl, rfl, rfl, rfl⟩
      · rw [if_neg hc] at hne
        exact absurd rfl hne

/-- C11 fails as stated. With a timeout of 30 minutes and clock readings 0, 400
and 1000 ns the record has createdAt 0 and expiresAt 1800000001000, not
1800000000000; with a timeout of 153722868 minutes and all readings 0 the
duration overflows and expiresAt lies before createdAt. -/
theorem expiresAt_counterexample :
    (initPayment scenarioConfig (.ok scenarioRequest) driftInit initial).db.map
      (fun r => (r.created_at, r.expires_at)) = [(0, 1800000001000)] ∧
    (0 : Int) + scenarioConfig.PaymentTimeout * 60000000000 ≠ 1800000001000 ∧
    (initPayment hugeTimeoutConfig (.ok scenarioRequest) scenarioInit initial).db.map
      (fun r => (r.created_at, decide (r.expires_at < r.created_at))) = [(0, true)] := by
  decide

/-- C11 as amended: every payment record created by `initPayment` has createdAt
equal to the first clock reading and expiresAt equal to the third clock reading
plus the configured timeout as an `int64` count of nanoseconds. When the timeout
is between -153722867 and 153722867 minutes that count is exact, expiresAt is
createdAt plus the timeout plus the time between the two readings, and it is
exactly createdAt plus the timeout if and only if the two readings coincide. -/
theorem initPayment_expiresAt (cfg : Config) (req : Except String PaymentRequest)
    (env : InitEnv) (s : System) (row : Row)
    (hrow : (initPayment cfg req env s).db = s.db ++ [row]) :
    row.created_at = env.now1 ∧
    row.expires_at = env.now3 + wrapInt64 (wrapInt64 cfg.PaymentTimeout * 60000000000) ∧
    (-153722867 ≤ cfg.PaymentTimeout → cfg.PaymentTimeout ≤ 153722867 →
      row.expires_at =
        row.created_at + cfg.PaymentTimeout * 60000000000 + (env.now3 - env.now1) ∧
      (row.expires_at = row.created_at + cfg.PaymentTimeout * 60000000000 ↔
        env.now3 = env.now1)) := by
  obtain ⟨r, _, _, hc, he, _⟩ := initPayment_row cfg req env s row hrow
  have hc2 : row.created_at = env.now1 := hc
  have he2 : row.expires_at =
      env.now3 + wrapInt64 (wrapInt64 cfg.PaymentTimeout * 60000000000) := he
  refine ⟨hc2, he2, ?_⟩
  intro hlo hhi
  have hw1 : wrapInt64 cfg.PaymentTimeout = cfg.PaymentTimeout :=
    wrapInt64_of_fits _ (by omega) (by omega)
  have hw2 : wrapInt64 (cfg.PaymentTimeout * 60000000000) = cfg.PaymentTimeout * 60000000000 :=
    wrapInt64_of_fits _ (by omega) (by omega)
  rw [hw1, hw2] at he2
  rw [he2, hc2]
  constructor
  · omega
  · constructor <;> intro h <;> omega

/-- C11 as amended, on a creation with the timeout loaded from PAYMENT_TIMEOUT=30
and clock readings 0, 400 and 1000 ns. -/
theorem initPayment_expiresAt_witness :
    (LoadConfig scenarioGetenv scenarioAtoi).PaymentTimeout = 30 ∧
    ∃ row, (initPayment (LoadConfig scenarioGetenv scenarioAtoi) (.ok scenarioRequest) driftInit
        initial).db = initial.db ++ [row] ∧
      row.created_at = 0 ∧ row.expires_at = 1800000001000 ∧
      row.expires_at = row.created_at + 30 * 60000000000 + (1000 - 0) := by
  refine ⟨by decide, ?_⟩
  have hrow : (initPayment (LoadConfig scenarioGetenv scenarioAtoi) (.ok scenarioRequest)
      driftInit initial).db = initial.db ++
        [{ scenarioRow with updated_at := 400, expires_at := 1800000001000 }] := by
    decide
  have h := initPayment_expiresAt (LoadConfig scenarioGetenv scenarioAtoi)
    (.ok scenarioRequest) driftInit initial _ hrow
  exact ⟨_, hrow, rfl, rfl, (h.2.2 (by decide) (by decide)).1⟩

/-! ### Payments with the same payee, asset and amount -/

theorem scanPay_congr (p1 p2 : Payment) (hm : p1.MerchantAddress = p2.MerchantAddress)
    (hamt : p1.Amount = p2.Amount) (l : List IndexerTransaction) :
    scanPay p1 l = scanPay p2 l := by
  induction l with
  | nil => rfl
  | cons txn rest ih => simp only [scanPay, hm, hamt, ih]

theorem scanAxfer_congr (p1 p2 : Payment) (hm : p1.MerchantAddress = p2.MerchantAddress)
    (ha : p1.AssetID = p2.AssetID) (hamt : p1.Amount = p2.Amount)
    (l : List IndexerTransaction) :
    scanAxfer p1 l = scanAxfer p2 l := by
  induction l with
  | nil => rfl
  | cons txn rest ih => simp only [scanAxfer, axferTransaction, hm, ha, hamt, ih]

/-- `CheckPayment` reads only the payee address, the asset and the amount of the
payment: two payments equal in these get the same result from indexers that
answer their queries alike. -/
theorem CheckPayment_congr (idx1 idx2 : Indexer) (p1 p2 : Payment) (w : Nat)
    (hm : p1.MerchantAddress = p2.MerchantAddress) (ha : p1.AssetID = p2.AssetID)
    (hamt : p1.Amount = p2.Amount)
    (hpay : idx1 (payLookup p1 w) = idx2 (payLookup p2 w))
    (hasa : idx1 (axferLookup p1 w) = idx2 (axferLookup p2 w)) :
    CheckPayment idx1 p1 w = CheckPayment idx2 p2 w := by
  unfold CheckPayment
  rw [hpay, hasa, ha]
  cases idx2 (payLookup p2 w) with
  | error e => rfl
  | ok result =>
    simp only [scanPay_congr p1 p2 hm hamt]
    cases idx2 (axferLookup p2 w) with
    | error e => rfl
    | ok asaResult => simp only [scanAxfer_congr p1 p2 hm ha hamt]

/-- C12: for two distinct payments of the listing of one tick with the same payee
address, asset and amount, for which the indexer answers the two queries alike,
`CheckPayment` gives the same result; when that result is a transaction, both
payments are put on the queue as completed with the id of that one transaction. -/
theorem twin_payments_share_transaction (env : TickEnv) (s : System) (h : Nat)
    (payments : List Payment) (j1 j2 : Nat) (p1 p2 : Payment)
    (hs : env.status = .ok h)
    (hl : GetPendingPayments s.db env.listNow env.listOk env.listRows = .ok payments)
    (h1 : payments[j1]? = some p1) (h2 : payments[j2]? = some p2)
    (hdist : p1.ID ≠ p2.ID)
    (hm : p1.MerchantAddress = p2.MerchantAddress) (ha : p1.AssetID = p2.AssetID)
    (hamt : p1.Amount = p2.Amount)
    (hpay : env.indexer j1 (payLookup p1 s.lastCheckedRound) =
      env.indexer j2 (payLookup p2 s.lastCheckedRound))
    (hasa : env.indexer j1 (axferLookup p1 s.lastCheckedRound) =
      env.indexer j2 (axferLookup p2 s.lastCheckedRound)) :
    CheckPayment (env.indexer j1) p1 s.lastCheckedRound =
      CheckPayment (env.indexer j2) p2 s.lastCheckedRound ∧
    ∀ txn, CheckPayment (env.indexer j1) p1 s.lastCheckedRound = .ok (some txn) →
      ∃ e1 e2, e1 ∈ (StartPaymentMonitorTick env s).paymentChan ∧
        e2 ∈ (StartPaymentMonitorTick env s).paymentChan ∧
        e1.ID = p1.ID ∧ e2.ID = p2.ID ∧ e1.ID ≠ e2.ID ∧
        e1.Status = PaymentStatus.completed ∧ e2.Status = PaymentStatus.completed ∧
        e1.TxnID = txn.ID ∧ e2.TxnID = txn.ID := by
  have hcongr := CheckPayment_congr (env.indexer j1) (env.indexer j2) p1 p2 s.lastCheckedRound
    hm ha hamt hpay hasa
  refine ⟨hcongr, ?_⟩
  intro txn hc1
  have hc2 : CheckPayment (env.indexer j2) p2 s.lastCheckedRound = .ok (some txn) := by
    rw [← hcongr]; exact hc1
  refine ⟨markCompleted p1 txn (env.clock j1), markCompleted p2 txn (env.clock j2),
    ?_, ?_, rfl, rfl, hdist, rfl, rfl, rfl, rfl⟩
  · rw [tick_paymentChan env s h payments hs hl]
    have := checkPayments_mem_of_match env.indexer env.clock s.lastCheckedRound payments 0
      s.paymentChan j1 p1 txn h1 (by simpa using hc1)
    simpa using this
  · rw [tick_paymentChan env s h payments hs hl]
    have := checkPayments_mem_of_match env.indexer env.clock s.lastCheckedRound payments 0
      s.paymentChan j2 p2 txn h2 (by simpa using hc2)
    simpa using this

/-- C12 on two pending payments p1 and p5 for 1,000,000 of asset 0 to A and one
ledger transfer TX1: both are queued as completed with TX1, and after the two
dispatcher steps both rows are completed with txn id TX1. -/
theorem twin_payments_share_transaction_witness :
    (∃ e1 e2, e1 ∈ (StartPaymentMonitorTick (scenarioTick 50 1500000) twinSystem).paymentChan ∧
        e2 ∈ (StartPaymentMonitorTick (scenarioTick 50 1500000) twinSystem).paymentChan ∧
        e1.ID = "p1" ∧ e2.ID = "p5" ∧ e1.TxnID = "TX1" ∧ e2.TxnID = "TX1") ∧
    (run scenarioConfig twinSystem
        [.monitor (scenarioTick 50 1500000), .webhook 200 true, .webhook 201 true]).db.map
      (fun r => (r.id, r.status, r.txn_id)) =
        [("p1", PaymentStatus.completed, some "TX1"),
         ("p5", PaymentStatus.completed, some "TX1")] := by
  refine ⟨?_, by decide⟩
  obtain ⟨_, hboth⟩ := twin_payments_share_transaction (scenarioTick 50 1500000) twinSystem 50
    [scenarioPayment, { scenarioPayment with ID := "p5" }] 0 1
    scenarioPayment { scenarioPayment with ID := "p5" } rfl rfl rfl rfl (by decide)
    rfl rfl rfl rfl rfl
  obtain ⟨e1, e2, m1, m2, i1, i2, _, _, _, t1, t2⟩ :=
    hboth (payTransaction (scenarioTransfer 1500000)) rfl
  exact ⟨e1, e2, m1, m2, i1, i2, t1, t2⟩

/-! ### Transactions confirmed before the watermark -/

theorem scanPay_some_round (payment : Payment) (l : List IndexerTransaction) (t : Transaction)
    (h : scanPay payment l = some t) : ∃ x ∈ l, t.Round = x.ConfirmedRound := by
  induction l with
  | nil => simp [scanPay] at h
  | cons txn rest ih =>
    unfold scanPay at h
    by_cases hc : txn.PaymentTransaction.Receiver = payment.MerchantAddress ∧
        txn.PaymentTransaction.Amount ≥ payment.Amount
    · rw [if_pos hc] at h
      injection h with h
      exact ⟨txn, by simp, by rw [← h]; rfl⟩
    · rw [if_neg hc] at h
      obtain ⟨x, hx, hid⟩ := ih h
      exact ⟨x, List.mem_cons_of_mem _ hx, hid⟩

theorem scanAxfer_some_round (payment : Payment) (l : List IndexerTransaction)
    (t : Transaction) (h : scanAxfer payment l = some t) :
    ∃ x ∈ l, t.Round = x.ConfirmedRound := by
  induction l with
  | nil => simp [scanAxfer] at h
  | cons txn rest ih =>
    unfold scanAxfer at h
    by_cases hc : txn.AssetTransferTransaction.Receiver = payment.MerchantAddress ∧
        txn.AssetTransferTransaction.Amount ≥ payment.Amount
    · rw [if_pos hc] at h
      injection h with h
      exact ⟨txn, by simp, by rw [← h]; rfl⟩
    · rw [if_neg hc] at h
      obtain ⟨x, hx, hid⟩ := ih h
      exact ⟨x, List.mem_cons_of_mem _ hx, hid⟩

/-- With an indexer that returns only transactions at or above the requested
minimum round, a transfer returned by `CheckPayment` is confirmed above the
height it was called with. -/
theorem CheckPayment_round_gt (idx : Indexer) (payment : Payment) (w : Nat) (t : Transaction)
    (hidx : RespectsMinRound idx) (hw : w + 1 < 2 ^ 64)
    (h : CheckPayment idx payment w = .ok (some t)) : w < t.Round := by
  have hmin : (w + 1) % 2 ^ 64 = w + 1 := Nat.mod_eq_of_lt hw
  unfold CheckPayment at h
  cases hp : idx (payLookup payment w) with
  | error err => rw [hp] at h; simp at h
  | ok result =>
    rw [hp] at h
    by_cases h0 : payment.AssetID = 0
    · simp only [h0, if_true, ne_eq, not_true_eq_false, if_false] at h
      cases hs : scanPay payment result with
      | none => rw [hs] at h; simp at h
      | some t0 =>
        rw [hs] at h
        simp only [Except.ok.injEq, Option.some.injEq] at h
        subst h
        obtain ⟨x, hx, hr⟩ := scanPay_some_round payment result t0 hs
        have := hidx _ _ hp x hx
        simp only [payLookup, hmin] at this
        omega
    · simp only [h0, if_false, ne_eq, not_false_eq_true, if_true] at h
      cases ha : idx (axferLookup payment w) with
      | error err => rw [ha] at h; simp at h
      | ok asaResult =>
        rw [ha] at h
        simp only at h
        cases hs : scanAxfer payment asaResult with
        | none => rw [hs] at h; simp at h
        | some t0 =>
          rw [hs] at h
          simp only [Except.ok.injEq, Option.some.injEq] at h
          subst h
          obtain ⟨x, hx, hr⟩ := scanAxfer_some_round payment asaResult t0 hs
          have := hidx _ _ ha x hx
          simp only [axferLookup, hmin] at this
          omega

theorem tick_lastCheckedRound_cases (env : TickEnv) (s : System) :
    (StartPaymentMonitorTick env s).lastCheckedRound = s.lastCheckedRound ∨
      ∃ h, env.status = .ok h ∧ (StartPaymentMonitorTick env s).lastCheckedRound = h := by
  unfold StartPaymentMonitorTick
  cases hs : env.status with
  | error e => left; simp [GetLatestRound]
  | ok h =>
    simp only [GetLatestRound]
    cases GetPendingPayments s.db env.listNow env.listOk env.listRows with
    | error e => left; rfl
    | ok l => right; exact ⟨h, rfl, rfl⟩

/-- A step that keeps the watermark above `H` does so. -/
theorem step_watermark_ge (cfg : Config) (H : Nat) (s : System) (st : Step)
    (hst : KeepsWatermarkAbove H st) (h : H ≤ s.lastCheckedRound) :
    H ≤ (step cfg s st).lastCheckedRound := by
  cases st with
  | init req env =>
    have : (step cfg s (Step.init req env)).lastCheckedRound = s.lastCheckedRound := by
      simp only [step, initPayment]
      cases req with
      | error e => rfl
      | ok r =>
        by_cases h0 : r.Amount = 0
        · simp [h0]
        · simp only [h0, if_false]
          cases CreatePayment s.db (newPayment cfg r env) env.zone env.execOk with
          | error e => rfl
          | ok d => rfl
    rw [this]; exact h
  | monitor env =>
    rcases tick_lastCheckedRound_cases env s with h1 | ⟨r, hs, h1⟩
    · simp only [step, h1]; exact h
    · simp only [step, h1]; exact hst r hs
  | webhook now execOk =>
    have : (step cfg s (Step.webhook now execOk)).lastCheckedRound = s.lastCheckedRound := by
      simp only [step, processWebhooksStep]
      cases s.paymentChan with
      | nil => rfl
      | cons e rest =>
        simp only
        cases UpdatePaymentStatus s.db e.ID e.Status e.TxnID now execOk with
        | error err => rfl
        | ok d => by_cases hc : e.CallbackURL = "" <;> simp [hc]
    rw [this]; exact h
  | cleanup now execOk =>
    have : (step cfg s (Step.cleanup now execOk)).lastCheckedRound = s.lastCheckedRound := by
      simp only [step, cleanupExpiredPaymentsTick]
      cases ExpireOldPayments s.db now execOk with
      | error err => rfl
      | ok d => rfl
    rw [this]; exact h
  | reboot => exact absurd hst (by simp [KeepsWatermarkAbove])

theorem run_watermark_ge (cfg : Config) (H : Nat) (steps : List Step) :
    ∀ s : System, (∀ st ∈ steps, KeepsWatermarkAbove H st) → H ≤ s.lastCheckedRound →
      H ≤ (run cfg s steps).lastCheckedRound := by
  induction steps with
  | nil => intro s _ h; exact h
  | cons st steps ih =>
    intro s hall h
    rw [run_cons]
    exact ih _ (fun st2 h2 => hall st2 (List.mem_cons_of_mem _ h2))
      (step_watermark_ge cfg H s st (hall st (List.mem_cons_self _ _)) h)

theorem scenarioIndexer_respectsMinRound (amount : Nat) :
    RespectsMinRound (scenarioIndexer amount) := by
  intro q l hq x hx
  unfold scenarioIndexer at hq
  split at hq
  · rename_i hc
    injection hq with hq
    subst hq
    simp only [List.mem_singleton] at hx
    subst hx
    exact hc.2.2
  · injection hq with hq
    subst hq
    simp at hx

/-- C13 fails as stated. The indexer returns only transactions at or above the
requested minimum round and the ledger holds TX1, confirmed at height 42. In the
first tick (watermark 40, height read 50) `CheckPayment` fails for the payment
and the watermark becomes 50; the second tick reads height 30 and lowers the
watermark to 30; in the third tick `CheckPayment` is called with 30, below 50,
returns TX1, and the payment is queued and then stored as completed with TX1. -/
theorem missed_transaction_returned_counterexample :
    RespectsMinRound (scenarioIndexer 1500000) ∧
    CheckPayment (outageTick.indexer 0) scenarioPayment scenarioSystem.lastCheckedRound =
      .error "failed to lookup transactions: indexer down" ∧
    (run scenarioConfig scenarioSystem (missedRun.take 1)).lastCheckedRound = 50 ∧
    (run scenarioConfig scenarioSystem (missedRun.take 1)).paymentChan = [] ∧
    (run scenarioConfig scenarioSystem (missedRun.take 2)).lastCheckedRound = 30 ∧
    (run scenarioConfig scenarioSystem (missedRun.take 2)).paymentChan = [] ∧
    CheckPayment (scenarioIndexer 1500000) scenarioPayment 30 =
      .ok (some (payTransaction (scenarioTransfer 1500000))) ∧
    (payTransaction (scenarioTransfer 1500000)).Round = 42 ∧
    (run scenarioConfig scenarioSystem missedRun).paymentChan = [scenarioEvent] ∧
    (run scenarioConfig scenarioSystem (missedRun ++ [.webhook 200 true])).db.map
      (fun r => (r.id, r.status, r.txn_id)) = [("p1", PaymentStatus.completed, some "TX1")] :=
  ⟨scenarioIndexer_respectsMinRound 1500000, rfl, by decide, by decide, by decide, by decide,
    rfl, rfl, by decide, by decide⟩

/-- C13 as amended: a tick whose height read and listing succeed moves the
watermark to the height read `H`, whether or not `CheckPayment` fails for a
listed payment. Through every later sequence of steps of the same process in
which no tick reads a height below `H`, the watermark stays at least `H`; and a
tick run then, against indexers that return only transactions at or above the
requested minimum round, calls `CheckPayment` with a height of at least `H` and
puts on the queue only events of transfers confirmed above `H`: a transaction
confirmed at or below `H` is not returned and completes no payment. -/
theorem missed_transaction_after_failed_check (cfg : Config) (env0 : TickEnv) (s0 : System)
    (H : Nat) (payments : List Payment)
    (hs : env0.status = .ok H)
    (hl : GetPendingPayments s0.db env0.listNow env0.listOk env0.listRows = .ok payments) :
    (StartPaymentMonitorTick env0 s0).lastCheckedRound = H ∧
    ∀ steps : List Step, (∀ st ∈ steps, KeepsWatermarkAbove H st) →
      H ≤ (run cfg (StartPaymentMonitorTick env0 s0) steps).lastCheckedRound ∧
      ∀ env : TickEnv, (∀ j, RespectsMinRound (env.indexer j)) →
        (run cfg (StartPaymentMonitorTick env0 s0) steps).lastCheckedRound + 1 < 2 ^ 64 →
        ∀ e ∈ (StartPaymentMonitorTick env
            (run cfg (StartPaymentMonitorTick env0 s0) steps)).paymentChan,
          e ∈ (run cfg (StartPaymentMonitorTick env0 s0) steps).paymentChan ∨
          ∃ (j : Nat) (p : Payment) (txn : Transaction),
            CheckPayment (env.indexer j) p
              (run cfg (StartPaymentMonitorTick env0 s0) steps).lastCheckedRound
                = .ok (some txn) ∧
            e = markCompleted p txn (env.clock j) ∧ H < txn.Round := by
  have h0 : (StartPaymentMonitorTick env0 s0).lastCheckedRound = H := by
    simp [StartPaymentMonitorTick, GetLatestRound, hs, hl]
  refine ⟨h0, ?_⟩
  intro steps hall
  have hge := run_watermark_ge cfg H steps (StartPaymentMonitorTick env0 s0) hall (by omega)
  refine ⟨hge, ?_⟩
  intro env hidx hw e he
  rcases tick_paymentChan_sub env _ e he with h1 | ⟨j, p, txn, hc, hee⟩
  · exact Or.inl h1
  · have := CheckPayment_round_gt (env.indexer j) p _ txn (hidx j) hw hc
    exact Or.inr ⟨j, p, txn, hc, hee, by omega⟩

/-- C13 as amended, on the scenario: after the tick with the indexer down the
watermark is 50, it is still at least 50 after a tick that reads height 55, and
the tick after that queues nothing for TX1, confirmed at height 42. -/
theorem missed_transaction_after_failed_check_witness :
    (StartPaymentMonitorTick outageTick scenarioSystem).lastCheckedRound = 50 ∧
    50 ≤ (run scenarioConfig (StartPaymentMonitorTick outageTick scenarioSystem)
      [.monitor (scenarioTick 55 1500000)]).lastCheckedRound ∧
    (StartPaymentMonitorTick (scenarioTick 60 1500000)
      (run scenarioConfig (StartPaymentMonitorTick outageTick scenarioSystem)
        [.monitor (scenarioTick 55 1500000)])).paymentChan = [] := by
  have h := missed_transaction_after_failed_check scenarioConfig outageTick scenarioSystem 50
    [scenarioPayment] rfl rfl
  have hall : ∀ st ∈ [Step.monitor (scenarioTick 55 1500000)], KeepsWatermarkAbove 50 st := by
    intro st hst
    simp only [List.mem_singleton] at hst
    subst hst
    intro r hr
    simp only [scenarioTick, Except.ok.injEq] at hr
    omega
  exact ⟨h.1, (h.2 _ hall).1, by decide⟩

end AlgoPay
